import Mathlib

/-!
Verification of the spirograph interpolation core (rotation closure
calculator, two-wheel and N-wheel curve generators, easing library,
configuration interpolator and structural validation) against its
natural-language specification.  Python floats are modelled as exact
rationals (`ℚ`) where only field arithmetic occurs, and as reals (`ℝ`)
where trigonometry occurs; Python exceptions are modelled with
`Except String` / `Option`; optional dictionary keys are modelled with
`Option`.
-/

namespace Spiro

attribute [local semireducible] Rat.add Rat.sub Rat.mul Rat.inv

/-- Floor of a rational number, written so that it evaluates by kernel
reduction (`Int.fdiv` of numerator by denominator). -/
def ratFloor (q : ℚ) : ℤ := q.num.fdiv q.den

/-- Python's built-in `round` on a rational value: round half to even
(banker's rounding), as used by `round(x)` on floats. -/
def pyRound (q : ℚ) : ℤ :=
  let f : ℤ := ratFloor q
  let frac : ℚ := q - f
  if frac < 1/2 then f
  else if 1/2 < frac then f + 1
  else if f % 2 = 0 then f else f + 1

/-- Python's integer floor division `a // b` (with the convention that the
model returns 0 on division by zero; the callers below guard or discuss
that case separately). -/
def pyFloorDiv (a : ℤ) (b : ℤ) : ℤ := Int.fdiv a b

/-- Model of `spirograph.calculate_required_rotations`:
`R = int(round(fixed_teeth)); r = int(round(moving_teeth));
return r // math.gcd(R, r)`. -/
def calculate_required_rotations (fixed_teeth moving_teeth : ℚ) : ℤ :=
  let R : ℤ := pyRound fixed_teeth
  let r : ℤ := pyRound moving_teeth
  pyFloorDiv r (Int.gcd R r)

/-- Model of `interpolator.linear`. -/
def linear (t : ℚ) : ℚ := t

/-- Model of `interpolator.ease_in_out_cubic`: `3t² - 2t³`. -/
def ease_in_out_cubic (t : ℚ) : ℚ := 3 * t * t - 2 * t * t * t

/-- Model of `interpolator.ease_in_quadratic`: `t²`. -/
def ease_in_quadratic (t : ℚ) : ℚ := t * t

/-- Model of `interpolator.ease_out_quadratic`: `1 - (1-t)²`. -/
def ease_out_quadratic (t : ℚ) : ℚ := 1 - (1 - t) * (1 - t)

/-- The keys of the `EASING_FUNCTIONS` registry, in source order. -/
def easingNames : List String := ["linear", "ease-in-out", "ease-in", "ease-out"]

/-- Lookup in the `EASING_FUNCTIONS` registry. -/
def easingLookup (name : String) : Option (ℚ → ℚ) :=
  if name = "linear" then some linear
  else if name = "ease-in-out" then some ease_in_out_cubic
  else if name = "ease-in" then some ease_in_quadratic
  else if name = "ease-out" then some ease_out_quadratic
  else none

/-- Model of `interpolator.get_easing_function`: raises `ValueError` for a
name not present in the registry. -/
def get_easing_function (name : String) : Except String (ℚ → ℚ) :=
  match easingLookup name with
  | some f => Except.ok f
  | none => Except.error ("Unknown easing function " ++ name)

/-- Model of `interpolator.interpolate_value`:
`a + (b - a) * easing_func(t)` (raises for an unknown easing name). -/
def interpolate_value (a b t : ℚ) (easing : String) : Except String ℚ := do
  let f ← get_easing_function easing
  pure (a + (b - a) * f t)

/-- One sampled point of `spirograph.generate_spirograph_simple`: with
`R = 1.0`, `r = moving_teeth / fixed_teeth`, `d = pen_offset * r`,
`num_points = points_per_rotation * num_rotations`,
`t = (i / num_points) * (2 * π * num_rotations)`,
the point is `((R-r)·cos t + d·cos((R-r)·t/r), (R-r)·sin t - d·sin((R-r)·t/r))`. -/
noncomputable def spiroSimplePoint (fixed_teeth moving_teeth pen_offset : ℝ)
    (num_rotations points_per_rotation : ℕ) (i : ℕ) : ℝ × ℝ :=
  let R : ℝ := 1
  let r : ℝ := moving_teeth / fixed_teeth
  let d : ℝ := pen_offset * r
  let total_angle : ℝ := 2 * Real.pi * num_rotations
  let num_points : ℕ := points_per_rotation * num_rotations
  let t : ℝ := ((i : ℝ) / (num_points : ℝ)) * total_angle
  ((R - r) * Real.cos t + d * Real.cos ((R - r) * t / r),
   (R - r) * Real.sin t - d * Real.sin ((R - r) * t / r))

/-- Model of `spirograph.generate_spirograph_simple`: the list of
`spiroSimplePoint`s for `i` in `range(num_points + 1)`. -/
noncomputable def generate_spirograph_simple (fixed_teeth moving_teeth pen_offset : ℝ)
    (num_rotations : ℕ) (points_per_rotation : ℕ) : List (ℝ × ℝ) :=
  (List.range (points_per_rotation * num_rotations + 1)).map
    (spiroSimplePoint fixed_teeth moving_teeth pen_offset num_rotations points_per_rotation)

/-- Model of `spirograph.generate_spirograph_simple` with Python's failure
behaviour made explicit: the body raises `ZeroDivisionError` exactly when
`fixed_teeth == 0` (at `r = moving_teeth / fixed_teeth`), when `r == 0`
(at `(R - r) * t / r`), or when `num_points == 0` (at `i / num_points`);
otherwise it returns the point list. -/
noncomputable def generate_spirograph_simple_checked (fixed_teeth moving_teeth pen_offset : ℝ)
    (num_rotations : ℕ) (points_per_rotation : ℕ) : Option (List (ℝ × ℝ)) :=
  if fixed_teeth = 0 then none
  else if moving_teeth / fixed_teeth = 0 then none
  else if points_per_rotation * num_rotations = 0 then none
  else some (generate_spirograph_simple fixed_teeth moving_teeth pen_offset
    num_rotations points_per_rotation)

/-- One wheel record of the `wheel_data` list built by
`spirograph.generate_spirograph_multi` (only the fields that
`calculate_chain_position` reads). -/
structure ChainWheel where
  radius : ℝ
  parent_index : ℕ
  pen_offset : ℝ
deriving Inhabited

/-- The fold state of the chain traversal in
`spirograph.calculate_chain_position`: after processing wheels `1..k`,
the accumulated centre position `(x, y)` and cumulative angle `φ`. -/
noncomputable def chainAcc (wheels : List ChainWheel) (t : ℝ) : ℕ → (ℝ × ℝ) × ℝ
  | 0 => ((0, 0), 0)
  | k + 1 =>
    let ((x, y), phi) := chainAcc wheels t k
    let wheel := wheels.getD (k + 1) default
    let parent := wheels.getD wheel.parent_index default
    let R := parent.radius
    let r := wheel.radius
    let center_radius := R - r
    let angle := t + phi
    ((x + center_radius * Real.cos angle, y + center_radius * Real.sin angle),
     phi + (R - r) / r * t)

/-- Model of `spirograph.calculate_chain_position`: walk the chain from
wheel 1 to `target_index`, then add the pen offset on the final wheel when
`pen_offset > 0`. -/
noncomputable def calculate_chain_position (wheels : List ChainWheel) (target_index : ℕ)
    (pen_offset t : ℝ) : ℝ × ℝ :=
  let ((x, y), phi) := chainAcc wheels t target_index
  if 0 < pen_offset then
    let pen_radius := pen_offset * (wheels.getD target_index default).radius
    let pen_angle := t + phi
    (x + pen_radius * Real.cos pen_angle, y + pen_radius * Real.sin pen_angle)
  else (x, y)

/-- An input wheel dictionary as consumed by
`spirograph.generate_spirograph_multi` (keys that may be absent are
`Option`s; the `type` key is not read by the generator and is omitted). -/
structure MultiWheel where
  teeth : ℝ
  radius : Option ℝ
  parent_index : Option ℕ
  pen_offset : Option ℝ
deriving Inhabited

/-- The `wheel_data` preprocessing of `spirograph.generate_spirograph_multi`:
radius defaults to `teeth / base_teeth` and is forced to `1.0` for wheel 0;
`parent_index` defaults to the predecessor (wheel 0 stores `None` in the
source, which is never read; the model stores 0 there). -/
noncomputable def buildWheelData (wheels : List MultiWheel) : List ChainWheel :=
  let base_teeth := (wheels.headI.teeth)
  (List.range wheels.length).map (fun i =>
    let wheel := wheels.getD i default
    { radius := if i = 0 then 1 else wheel.radius.getD (wheel.teeth / base_teeth)
      parent_index := wheel.parent_index.getD (i - 1)
      pen_offset := wheel.pen_offset.getD 0 })

/-- Model of `spirograph.generate_spirograph_multi`: preprocess the wheels,
take the pen on the last wheel, and sample `calculate_chain_position` at
`num_points + 1` parameter values. -/
noncomputable def generate_spirograph_multi (wheels : List MultiWheel)
    (num_rotations : ℕ) (points_per_rotation : ℕ) : List (ℝ × ℝ) :=
  let wheel_data := buildWheelData wheels
  let pen_wheel_index := wheel_data.length - 1
  let pen_offset := (wheel_data.getD pen_wheel_index default).pen_offset
  let total_angle : ℝ := 2 * Real.pi * num_rotations
  let num_points : ℕ := points_per_rotation * num_rotations
  (List.range (num_points + 1)).map (fun (i : ℕ) =>
    calculate_chain_position wheel_data pen_wheel_index pen_offset
      (((i : ℝ) / (num_points : ℝ)) * total_angle))

/-- Truncation toward zero, the behaviour of Python's `int()` on a float
(for a negative value the floor of the negation is negated, i.e. the
ceiling). -/
def pyTrunc (q : ℚ) : ℤ := if 0 ≤ q then ratFloor q else -(ratFloor (-q))

/-- Value of a single hexadecimal digit character (`0-9`, `a-f`, `A-F`),
or `none` for any other character. -/
def hexDigitVal (c : Char) : Option ℕ :=
  if 48 ≤ c.toNat ∧ c.toNat ≤ 57 then some (c.toNat - 48)
  else if 97 ≤ c.toNat ∧ c.toNat ≤ 102 then some (c.toNat - 97 + 10)
  else if 65 ≤ c.toNat ∧ c.toNat ≤ 70 then some (c.toNat - 65 + 10)
  else none

/-- Model of Python's `int(s, 16)` on a plain string of hex digits: raises
`ValueError` on an empty string or on any non-hex character. -/
def pyIntBase16 (cs : List Char) : Except String ℕ :=
  match cs with
  | [] => Except.error "invalid literal for int with base 16"
  | _ :: _ =>
    cs.foldlM (fun acc c =>
      match hexDigitVal c with
      | some v => Except.ok (16 * acc + v)
      | none => Except.error "invalid literal for int with base 16") 0

/-- Python string slice `s[a:b]` (for `0 ≤ a ≤ b`). -/
def strSlice (s : String) (a b : ℕ) : List Char := (s.toList.drop a).take (b - a)

/-- Uppercase hexadecimal digit character for a value `< 16`. -/
def hexDigitChar (n : ℕ) : Char :=
  if n < 10 then Char.ofNat (48 + n) else Char.ofNat (65 + (n - 10))

/-- Digits of a natural number in uppercase hexadecimal, structurally
recursive on a fuel bound (the fuel exceeds the digit count for every
input `hexRep` passes). -/
def hexRepAux : ℕ → ℕ → List Char
  | 0, _ => []
  | fuel + 1, n =>
    if n < 16 then [hexDigitChar n]
    else hexRepAux fuel (n / 16) ++ [hexDigitChar (n % 16)]

/-- Uppercase hexadecimal digit string of a natural number (no padding). -/
def hexRep (n : ℕ) : List Char := hexRepAux (n + 1) n

/-- Model of Python's format spec `f"{z:02X}"`: uppercase hexadecimal,
zero-padded to a minimum total width of 2 (a sign counts toward the width). -/
def formatHex02 (z : ℤ) : String :=
  let body := hexRep z.natAbs
  let sign : List Char := if z < 0 then ['-'] else []
  let pad : List Char := List.replicate (2 - (sign.length + body.length)) '0'
  ⟨sign ++ pad ++ body⟩

/-- Model of `interpolator.interpolate_color`: parse the three channels of
both `#RRGGBB` strings (Python `int(s[1:3], 16)` etc., which raises on
malformed hex), interpolate each channel, truncate with `int()`, and
re-encode as `"#" + f"{r:02X}{g:02X}{b:02X}"`. -/
def interpolate_color (color_a color_b : String) (t : ℚ) (easing : String) :
    Except String String := do
  let r1 ← pyIntBase16 (strSlice color_a 1 3)
  let g1 ← pyIntBase16 (strSlice color_a 3 5)
  let b1 ← pyIntBase16 (strSlice color_a 5 7)
  let r2 ← pyIntBase16 (strSlice color_b 1 3)
  let g2 ← pyIntBase16 (strSlice color_b 3 5)
  let b2 ← pyIntBase16 (strSlice color_b 5 7)
  let r := pyTrunc (← interpolate_value r1 r2 t easing)
  let g := pyTrunc (← interpolate_value g1 g2 t easing)
  let b := pyTrunc (← interpolate_value b1 b2 t easing)
  pure ("#" ++ formatHex02 r ++ formatHex02 g ++ formatHex02 b)

/-- A wheel dictionary as handled by `config.validate_wheels` and
`interpolator.interpolate_wheel`; every key may be absent. -/
structure Wheel where
  type : Option String
  teeth : Option ℚ
  radius : Option ℚ
  parent_index : Option ℤ
  pen_offset : Option ℚ
deriving DecidableEq, Inhabited

/-- The empty dictionary `{}` used as the `next(..., {})` default in
`interpolator.interpolate_configs`. -/
def emptyWheel : Wheel := ⟨none, none, none, none, none⟩

/-- Dictionary key access `d[k]`: raises `KeyError` when the key is absent. -/
def req {α : Type} (o : Option α) (msg : String) : Except String α :=
  match o with
  | some a => Except.ok a
  | none => Except.error msg

/-- Model of `interpolator.interpolate_wheel`: a freshly built dictionary
with the A-side `type`, interpolated `teeth`, and `radius` / `pen_offset`
interpolated when present on both sides, carried through when present on
one side, absent otherwise.  No other key (in particular no
`parent_index`) is ever placed in the result. -/
def interpolate_wheel (wheel_a wheel_b : Wheel) (t : ℚ) (easing : String) :
    Except String Wheel := do
  let ty ← req wheel_a.type "KeyError: type"
  let ta ← req wheel_a.teeth "KeyError: teeth"
  let tb ← req wheel_b.teeth "KeyError: teeth"
  let teeth ← interpolate_value ta tb t easing
  let radius : Option ℚ ←
    match wheel_a.radius, wheel_b.radius with
    | some ra, some rb => do
      let r ← interpolate_value ra rb t easing
      pure (some r)
    | some ra, none => pure (some ra)
    | none, some rb => pure (some rb)
    | none, none => pure none
  let pen : Option ℚ ←
    match wheel_a.pen_offset, wheel_b.pen_offset with
    | some pa, some pb => do
      let p ← interpolate_value pa pb t easing
      pure (some p)
    | some pa, none => pure (some pa)
    | none, some pb => pure (some pb)
    | none, none => pure none
  pure { type := some ty, teeth := some teeth, radius := radius,
         parent_index := none, pen_offset := pen }

/-- A configuration dictionary as handled by
`interpolator.interpolate_configs`; every top-level key may be absent
(`wheels` absent is modelled as the empty list, matching
`config.get("wheels", [])`). -/
structure Config where
  name : Option String
  wheels : List Wheel
  rotation_count : Option ℤ
  color : Option String
  line_width : Option ℚ
deriving DecidableEq, Inhabited

/-- Model of `next((w for w in wheels if w.get("type") == ty), {})`. -/
def firstOfType (wheels : List Wheel) (ty : String) : Wheel :=
  (wheels.find? (fun w => w.type = some ty)).getD emptyWheel

/-- Rendering of the Python format `f"{t:.1%}"`: `t` as a percentage with
one decimal digit (display-only; rounding as `pyRound` on the tenths of a
percent). -/
def formatPercent1 (t : ℚ) : String :=
  let m : ℤ := pyRound (t * 1000)
  toString (Int.fdiv m 10) ++ "." ++ toString (Int.emod m 10) ++ "%"

/-- The interpolation parameter of step `i`:
`t = i / (steps - 1) if steps > 1 else 0.0`. -/
def interpT (steps i : ℕ) : ℚ :=
  if 1 < steps then (i : ℚ) / ((steps : ℚ) - 1) else 0

/-- The body of one iteration of the loop in
`interpolator.interpolate_configs`, producing the step-`i` configuration. -/
def interpStep (config_a config_b : Config) (steps : ℕ)
    (easing rotation_strategy : String) (i : ℕ) : Except String Config := do
  let t : ℚ := interpT steps i
  let name : Option String :=
    if config_a.name.isSome ∨ config_b.name.isSome then
      let name_a := config_a.name.getD ""
      let name_b := config_b.name.getD ""
      some (if t = 0 then name_a
            else if t = 1 then name_b
            else name_a ++ " → " ++ name_b ++ " (" ++ formatPercent1 t ++ ")")
    else none
  let fixed_a := firstOfType config_a.wheels "fixed"
  let fixed_b := firstOfType config_b.wheels "fixed"
  let moving_a := firstOfType config_a.wheels "moving"
  let moving_b := firstOfType config_b.wheels "moving"
  let w0 ← interpolate_wheel fixed_a fixed_b t easing
  let w1 ← interpolate_wheel moving_a moving_b t easing
  let rot : ℤ ←
    if rotation_strategy = "auto" then do
      let ft ← req w0.teeth "KeyError: teeth"
      let mt ← req w1.teeth "KeyError: teeth"
      pure (calculate_required_rotations ft mt)
    else if rotation_strategy = "max" then
      pure (max (config_a.rotation_count.getD 1) (config_b.rotation_count.getD 1))
    else if rotation_strategy = "fixed" then
      pure 50
    else
      match config_a.rotation_count with
      | some rc => pure rc
      | none => do
        let ft ← req w0.teeth "KeyError: teeth"
        let mt ← req w1.teeth "KeyError: teeth"
        pure (calculate_required_rotations ft mt)
  let color : Option String ←
    match config_a.color, config_b.color with
    | some ca, some cb => do
      let c ← interpolate_color ca cb t easing
      pure (some c)
    | some ca, none => pure (some ca)
    | none, some cb => pure (some cb)
    | none, none => pure none
  let lw : Option ℚ ←
    match config_a.line_width, config_b.line_width with
    | some la, some lb => do
      let l ← interpolate_value la lb t easing
      pure (some l)
    | some la, none => pure (some la)
    | none, some lb => pure (some lb)
    | none, none => pure none
  pure { name := name, wheels := [w0, w1], rotation_count := some rot,
         color := color, line_width := lw }

/-- The `for i in range(steps): configs.append(...)` accumulation. -/
def buildSteps (f : ℕ → Except String Config) : ℕ → Except String (List Config)
  | 0 => Except.ok []
  | n + 1 => do
    let xs ← buildSteps f n
    let c ← f n
    pure (xs ++ [c])

/-- Model of `interpolator.interpolate_configs`: raises `ValueError` for
`steps < 2`, otherwise runs `interpStep` for each `i in range(steps)`. -/
def interpolate_configs (config_a config_b : Config) (steps : ℕ)
    (easing rotation_strategy : String) : Except String (List Config) :=
  if steps < 2 then Except.error "steps must be at least 2"
  else buildSteps (interpStep config_a config_b steps easing rotation_strategy) steps

/-- Match of the regular expression `^#[0-9A-Fa-f]{6}$` under Python
`re.match` semantics: `$` matches at the end of the string and also just
before a single newline that ends the string, so exactly the strings
`#` + 6 hex digits and `#` + 6 hex digits + `\n` are accepted. -/
def isHexColor (s : String) : Bool :=
  match s.toList with
  | ['#', a1, a2, a3, a4, a5, a6] =>
    (hexDigitVal a1).isSome && (hexDigitVal a2).isSome &&
    (hexDigitVal a3).isSome && (hexDigitVal a4).isSome &&
    (hexDigitVal a5).isSome && (hexDigitVal a6).isSome
  | ['#', a1, a2, a3, a4, a5, a6, nl] =>
    nl = '\n' &&
    ((hexDigitVal a1).isSome && (hexDigitVal a2).isSome &&
     (hexDigitVal a3).isSome && (hexDigitVal a4).isSome &&
     (hexDigitVal a5).isSome && (hexDigitVal a6).isSome)
  | _ => false

/-- Model of `config.validate_color`: raises `ConfigValidationError` when
the string does not match `^#[0-9A-Fa-f]{6}$`. -/
def validate_color (color : String) : Except String Unit :=
  if isHexColor color then Except.ok ()
  else Except.error ("Color must be in hex format (#RRGGBB), got " ++ color)

/-- Per-wheel `type` checks of `config.validate_wheels`. -/
def checkWheelType (i : ℕ) (w : Wheel) : Except String String :=
  match w.type with
  | none => Except.error ("Wheel " ++ toString i ++ " must have a type field")
  | some ty =>
    if ty = "fixed" ∨ ty = "moving" then Except.ok ty
    else Except.error ("Invalid wheel type: " ++ ty)

/-- Per-wheel `teeth` checks of `config.validate_wheels`. -/
def checkWheelTeeth (i : ℕ) (w : Wheel) : Except String ℚ :=
  match w.teeth with
  | none => Except.error ("Wheel " ++ toString i ++ " missing teeth field")
  | some teeth =>
    if teeth ≤ 0 then
      Except.error ("Wheel " ++ toString i ++ ": teeth count must be positive")
    else Except.ok teeth

/-- The `parent_index` handling of `config.validate_wheels`: only for
configurations with more than 2 wheels and `i > 0`; a missing
`parent_index` is defaulted to `i - 1`, an out-of-range one is rejected. -/
def resolveParent (n i : ℕ) (w : Wheel) : Except String Wheel :=
  if 2 < n ∧ 0 < i then
    match w.parent_index with
    | none => Except.ok { w with parent_index := some ((i : ℤ) - 1) }
    | some p =>
      if p < 0 ∨ (i : ℤ) ≤ p then
        Except.error ("Wheel " ++ toString i ++ ": parent_index must be a valid index < " ++ toString i)
      else Except.ok w
  else Except.ok w

/-- The `pen_offset` non-negativity check of `config.validate_wheels`
(performed only on a moving wheel that carries the key). -/
def checkPenOffset (i : ℕ) (ty : String) (w : Wheel) : Except String Unit :=
  if ty = "moving" then
    match w.pen_offset with
    | some po =>
      if po < 0 then
        Except.error ("Wheel " ++ toString i ++ ": pen_offset must be non-negative")
      else Except.ok ()
    | none => Except.ok ()
  else Except.ok ()

/-- All per-wheel checks of one iteration of the `config.validate_wheels`
loop: type, teeth, `parent_index` handling and `pen_offset` check, in
source order; returns the wheel's type tag and its normalized form. -/
def wheelCheck (n i : ℕ) (w : Wheel) : Except String (String × Wheel) := do
  let ty ← checkWheelType i w
  let _ ← checkWheelTeeth i w
  let w' ← resolveParent n i w
  let _ ← checkPenOffset i ty w'
  pure (ty, w')

/-- The per-wheel loop of `config.validate_wheels`, threading the fixed and
moving counts and producing the (possibly `parent_index`-normalized)
wheel list. -/
def validateWheelsLoop (n : ℕ) : List (ℕ × Wheel) → ℕ → ℕ →
    Except String (List Wheel × ℕ × ℕ)
  | [], fc, mc => Except.ok ([], fc, mc)
  | (i, w) :: rest, fc, mc => do
    let (ty, w') ← wheelCheck n i w
    let fc' := if ty = "fixed" then fc + 1 else fc
    let mc' := if ty = "fixed" then mc else mc + 1
    let (ws, fcr, mcr) ← validateWheelsLoop n rest fc' mc'
    pure (w' :: ws, fcr, mcr)

/-- Index of the last wheel with `type == "moving"`, if any. -/
def lastMovingIdx (wheels : List Wheel) : Option ℕ :=
  ((wheels.enum.filter (fun p => p.2.type = some "moving")).map Prod.fst).getLast?

/-- Model of `config.validate_wheels`: all structural checks, plus the two
documented normalizations (default `parent_index` to the predecessor for
3+-wheel configurations; default `pen_offset = 0.7` on the last moving
wheel of a 3+-wheel configuration).  Returns the normalized wheel list. -/
def validate_wheels (wheels : List Wheel) : Except String (List Wheel) :=
  if wheels.length < 2 then Except.error "Configuration must have at least 2 wheels"
  else do
    let (out, fc, mc) ← validateWheelsLoop wheels.length wheels.enum 0 0
    if fc = 0 then Except.error "Configuration must have at least one fixed wheel"
    else if mc = 0 then Except.error "Configuration must have at least one moving wheel"
    else if wheels.length = 2 then
      match out.find? (fun w => w.type = some "moving") with
      | some mw =>
        if mw.pen_offset.isNone then
          Except.error "2-wheel config: moving wheel must have pen_offset field"
        else Except.ok out
      | none => Except.ok out
    else
      match lastMovingIdx out with
      | some j =>
        if (out.getD j default).pen_offset.isNone then
          Except.ok (out.set j { out.getD j default with pen_offset := some (7/10) })
        else Except.ok out
      | none => Except.ok out

/-- The pure value of `interpolate_wheel` on success, given the easing
function `f` that the easing name resolves to. -/
def wheelPure (wa wb : Wheel) (t : ℚ) (f : ℚ → ℚ) : Wheel :=
  { type := wa.type
    teeth := some (wa.teeth.getD 0 + (wb.teeth.getD 0 - wa.teeth.getD 0) * f t)
    radius :=
      match wa.radius, wb.radius with
      | some ra, some rb => some (ra + (rb - ra) * f t)
      | some ra, none => some ra
      | none, some rb => some rb
      | none, none => none
    parent_index := none
    pen_offset :=
      match wa.pen_offset, wb.pen_offset with
      | some pa, some pb => some (pa + (pb - pa) * f t)
      | some pa, none => some pa
      | none, some pb => some pb
      | none, none => none }

/-- The pure value of `interpolate_color` on success (channels parsed with
a default that is never used when the colors are valid hex). -/
def colorPure (ca cb : String) (t : ℚ) (f : ℚ → ℚ) : String :=
  let r1 := ((pyIntBase16 (strSlice ca 1 3)).toOption.getD 0 : ℕ)
  let g1 := ((pyIntBase16 (strSlice ca 3 5)).toOption.getD 0 : ℕ)
  let b1 := ((pyIntBase16 (strSlice ca 5 7)).toOption.getD 0 : ℕ)
  let r2 := ((pyIntBase16 (strSlice cb 1 3)).toOption.getD 0 : ℕ)
  let g2 := ((pyIntBase16 (strSlice cb 3 5)).toOption.getD 0 : ℕ)
  let b2 := ((pyIntBase16 (strSlice cb 5 7)).toOption.getD 0 : ℕ)
  "#" ++ formatHex02 (pyTrunc ((r1 : ℚ) + ((r2 : ℚ) - r1) * f t)) ++
    formatHex02 (pyTrunc ((g1 : ℚ) + ((g2 : ℚ) - g1) * f t)) ++
    formatHex02 (pyTrunc ((b1 : ℚ) + ((b2 : ℚ) - b1) * f t))

/-- The pure value of `interpStep` on success. -/
def stepPure (a b : Config) (steps : ℕ) (f : ℚ → ℚ) (strategy : String)
    (i : ℕ) : Config :=
  let t := interpT steps i
  let w0 := wheelPure (firstOfType a.wheels "fixed") (firstOfType b.wheels "fixed") t f
  let w1 := wheelPure (firstOfType a.wheels "moving") (firstOfType b.wheels "moving") t f
  { name :=
      if a.name.isSome ∨ b.name.isSome then
        some (if t = 0 then a.name.getD ""
              else if t = 1 then b.name.getD ""
              else a.name.getD "" ++ " → " ++ b.name.getD "" ++ " (" ++
                formatPercent1 t ++ ")")
      else none
    wheels := [w0, w1]
    rotation_count := some (
      if strategy = "auto" then
        calculate_required_rotations (w0.teeth.getD 0) (w1.teeth.getD 0)
      else if strategy = "max" then
        max (a.rotation_count.getD 1) (b.rotation_count.getD 1)
      else if strategy = "fixed" then 50
      else
        match a.rotation_count with
        | some rc => rc
        | none => calculate_required_rotations (w0.teeth.getD 0) (w1.teeth.getD 0))
    color :=
      match a.color, b.color with
      | some ca, some cb => some (colorPure ca cb t f)
      | some ca, none => some ca
      | none, some cb => some cb
      | none, none => none
    line_width :=
      match a.line_width, b.line_width with
      | some la, some lb => some (la + (lb - la) * f t)
      | some la, none => some la
      | none, some lb => some lb
      | none, none => none }

/-- A concrete two-wheel configuration (note the lowercase hex color). -/
def sampleA : Config :=
  ⟨some "A",
   [⟨some "fixed", some 10, none, none, none⟩,
    ⟨some "moving", some 50, none, none, some (1/2)⟩],
   some 3, some "#ff0000", some 2⟩

/-- A second concrete two-wheel configuration. -/
def sampleB : Config :=
  ⟨some "B",
   [⟨some "fixed", some 10, none, none, none⟩,
    ⟨some "moving", some 21, none, none, some (7/10)⟩],
   some 5, some "#000000", some 4⟩

theorem ratFloor_eq (q : ℚ) : ratFloor q = ⌊q⌋ := by
  rw [Rat.floor_def, ratFloor]
  exact Int.fdiv_eq_ediv _ (Int.ofNat_nonneg q.den)

theorem pyRound_intCast (n : ℤ) : pyRound (n : ℚ) = n := by
  unfold pyRound
  rw [ratFloor_eq]
  simp

theorem pyRound_natCast (n : ℕ) : pyRound (n : ℚ) = n := by
  have h := pyRound_intCast (n : ℤ)
  simpa using h

theorem getD_range_map {α : Type} (f : ℕ → α) (n i : ℕ) (d : α) (h : i < n) :
    ((List.range n).map f).getD i d = f i := by
  rw [List.getD_eq_getElem?_getD]
  simp [List.getElem?_map, List.getElem?_range, h]

theorem calc_required_natCast (R r : ℕ) (hrpos : 0 < r) :
    calculate_required_rotations (R : ℚ) (r : ℚ) = ((r / Nat.gcd R r : ℕ) : ℤ) := by
  show pyFloorDiv (pyRound (r : ℚ)) (Int.gcd (pyRound (R : ℚ)) (pyRound (r : ℚ))) = _
  rw [pyRound_natCast, pyRound_natCast]
  have hg : Int.gcd (R : ℤ) (r : ℤ) = Nat.gcd R r := by
    simp [Int.gcd]
  rw [hg]
  unfold pyFloorDiv
  set g := Nat.gcd R r with hgdef
  have hgne : g ≠ 0 := by
    intro h
    rw [hgdef] at h
    have := Nat.eq_zero_of_gcd_eq_zero_right h
    omega
  have hgpos : 0 < g := Nat.pos_of_ne_zero hgne
  have hgz : (g : ℤ) ≠ 0 := by exact_mod_cast hgne
  obtain ⟨q, hq⟩ : g ∣ r := Nat.gcd_dvd_right R r
  rw [hq, Nat.mul_div_cancel_left q hgpos]
  push_cast
  exact Int.mul_fdiv_cancel_left (q : ℤ) hgz

/-- C9: each of the four named easing functions maps `[0,1]` into `[0,1]`
and satisfies `ease 0 = 0` and `ease 1 = 1` exactly; additionally
`ease_in_out_cubic (1/2)` is within `1e-3` of `1/2` and
`ease_out_quadratic (1/2) = 3/4` exactly. -/
theorem C9_easing_laws (t : ℚ) (h0 : 0 ≤ t) (h1 : t ≤ 1) :
    (0 ≤ linear t ∧ linear t ≤ 1) ∧
    (0 ≤ ease_in_out_cubic t ∧ ease_in_out_cubic t ≤ 1) ∧
    (0 ≤ ease_in_quadratic t ∧ ease_in_quadratic t ≤ 1) ∧
    (0 ≤ ease_out_quadratic t ∧ ease_out_quadratic t ≤ 1) ∧
    linear 0 = 0 ∧ linear 1 = 1 ∧
    ease_in_out_cubic 0 = 0 ∧ ease_in_out_cubic 1 = 1 ∧
    ease_in_quadratic 0 = 0 ∧ ease_in_quadratic 1 = 1 ∧
    ease_out_quadratic 0 = 0 ∧ ease_out_quadratic 1 = 1 ∧
    |ease_in_out_cubic (1/2) - 1/2| ≤ 1/1000 ∧
    ease_out_quadratic (1/2) = 3/4 := by
  unfold linear ease_in_out_cubic ease_in_quadratic ease_out_quadratic
  refine ⟨⟨h0, h1⟩,
    ⟨by nlinarith [mul_nonneg (mul_nonneg h0 h0) (show (0:ℚ) ≤ 3 - 2*t by linarith)],
     by nlinarith [mul_nonneg (mul_nonneg (show (0:ℚ) ≤ 1 - t by linarith)
       (show (0:ℚ) ≤ 1 - t by linarith)) (show (0:ℚ) ≤ 1 + 2*t by linarith)]⟩,
    ⟨by nlinarith, by nlinarith⟩,
    ⟨by nlinarith, by nlinarith⟩, ?_⟩
  norm_num

/-- Witness for C9 at `t = 1/2`. -/
theorem C9_easing_laws_witness :
    ((0 : ℚ) ≤ 1/2 ∧ (1/2 : ℚ) ≤ 1) ∧
    ((0 ≤ linear (1/2) ∧ linear (1/2) ≤ 1) ∧
    (0 ≤ ease_in_out_cubic (1/2) ∧ ease_in_out_cubic (1/2) ≤ 1) ∧
    (0 ≤ ease_in_quadratic (1/2) ∧ ease_in_quadratic (1/2) ≤ 1) ∧
    (0 ≤ ease_out_quadratic (1/2) ∧ ease_out_quadratic (1/2) ≤ 1) ∧
    linear 0 = 0 ∧ linear 1 = 1 ∧
    ease_in_out_cubic 0 = 0 ∧ ease_in_out_cubic 1 = 1 ∧
    ease_in_quadratic 0 = 0 ∧ ease_in_quadratic 1 = 1 ∧
    ease_out_quadratic 0 = 0 ∧ ease_out_quadratic 1 = 1 ∧
    |ease_in_out_cubic (1/2) - 1/2| ≤ 1/1000 ∧
    ease_out_quadratic (1/2) = 3/4) :=
  ⟨⟨by norm_num, by norm_num⟩, C9_easing_laws (1/2) (by norm_num) (by norm_num)⟩

/-- The claim of C2 as stated is false: the positive real inputs
`(105, 0.3)` produce `0`, which is not a positive integer (the moving
teeth count rounds to `0`). -/
theorem C2_closure_counterexample :
    (0 : ℚ) < 105 ∧ (0 : ℚ) < 3/10 ∧
    calculate_required_rotations 105 (3/10) = 0 := by
  refine ⟨by norm_num, by norm_num, ?_⟩
  decide

/-- C2 (amended): for positive real inputs whose rounded moving teeth
count is at least 1, `calculate_required_rotations` returns a positive
integer that, multiplied by `gcd(R, r)`, gives back `r` exactly (the
division is exact); on positive integer inputs it equals `r / gcd(R, r)`,
and the three documented examples hold. -/
theorem C2_closure_rotations (F M : ℚ) (hF : 0 < F) (hM : 0 < M)
    (hr : 1 ≤ pyRound M) :
    0 < calculate_required_rotations F M ∧
    calculate_required_rotations F M * (Int.gcd (pyRound F) (pyRound M) : ℤ) =
      pyRound M ∧
    (∀ R r : ℕ, 0 < r →
      calculate_required_rotations (R : ℚ) (r : ℚ) = ((r / Nat.gcd R r : ℕ) : ℤ)) ∧
    calculate_required_rotations 105 64 = 64 ∧
    calculate_required_rotations 96 36 = 3 ∧
    calculate_required_rotations 100 50 = 1 := by
  have key : ∀ a : ℤ, ∀ g : ℕ, 1 ≤ a → (g : ℤ) ∣ a → g ≠ 0 →
      0 < Int.fdiv a g ∧ Int.fdiv a g * g = a := by
    intro a g ha hdvd hg
    obtain ⟨q, hq⟩ := hdvd
    have hg0 : (g : ℤ) ≠ 0 := by exact_mod_cast hg
    have hfd : Int.fdiv a g = q := by
      rw [hq]
      exact Int.mul_fdiv_cancel_left q hg0
    have hgpos : (0 : ℤ) < g := lt_of_le_of_ne (Int.ofNat_nonneg g) (Ne.symm hg0)
    have hqpos : 0 < q := by nlinarith [hq ▸ ha]
    exact ⟨hfd ▸ hqpos, by rw [hfd, hq]; ring⟩
  have hgdvd : (Int.gcd (pyRound F) (pyRound M) : ℤ) ∣ pyRound M :=
    Int.gcd_dvd_right
  have hgne : Int.gcd (pyRound F) (pyRound M) ≠ 0 := by
    intro h
    rw [Int.gcd_eq_zero_iff] at h
    omega
  obtain ⟨hpos, hmul⟩ := key (pyRound M) (Int.gcd (pyRound F) (pyRound M)) hr hgdvd hgne
  exact ⟨hpos, hmul, fun R r hrpos => calc_required_natCast R r hrpos,
    by decide, by decide, by decide⟩

/-- Witness for C2 at the documented example input `(105, 64)`. -/
theorem C2_closure_rotations_witness :
    ((0 : ℚ) < 105 ∧ (0 : ℚ) < 64 ∧ 1 ≤ pyRound 64) ∧
    0 < calculate_required_rotations 105 64 :=
  ⟨⟨by norm_num, by norm_num, by decide⟩,
   (C2_closure_rotations 105 64 (by norm_num) (by norm_num) (by decide)).1⟩

/-- C4: the two-wheel generator returns exactly
`points_per_rotation * num_rotations + 1` points, the `i`-th sampled at
`t = 2π·num_rotations·i / (points_per_rotation·num_rotations)` (linear
spacing over `[0, 2π·num_rotations]` inclusive), with
`x = (1-r)·cos t + d·cos((1-r)·t/r)` and
`y = (1-r)·sin t - d·sin((1-r)·t/r)` where `r = moving/fixed`,
`d = pen_offset·r`. -/
theorem C4_two_wheel_points (F M p : ℝ) (hF : 0 < F) (hM : 0 < M)
    (hp : 0 ≤ p) (N ppr : ℕ) (hN : 0 < N) (hppr : 0 < ppr) :
    (generate_spirograph_simple F M p N ppr).length = ppr * N + 1 ∧
    ∀ i, i < ppr * N + 1 →
      (generate_spirograph_simple F M p N ppr).getD i (0, 0) =
        ((1 - M / F) * Real.cos (2 * Real.pi * N * i / (ppr * N)) +
           p * (M / F) * Real.cos ((1 - M / F) * (2 * Real.pi * N * i / (ppr * N)) / (M / F)),
         (1 - M / F) * Real.sin (2 * Real.pi * N * i / (ppr * N)) -
           p * (M / F) * Real.sin ((1 - M / F) * (2 * Real.pi * N * i / (ppr * N)) / (M / F))) := by
  constructor
  · simp [generate_spirograph_simple]
  · intro i hi
    unfold generate_spirograph_simple
    rw [getD_range_map _ _ _ _ hi]
    unfold spiroSimplePoint
    have ht : ((i : ℝ) / ((ppr * N : ℕ) : ℝ)) * (2 * Real.pi * (N : ℝ)) =
        2 * Real.pi * N * i / (ppr * N) := by
      push_cast
      ring
    simp only []
    rw [ht]

theorem spiro_first_point (F M p : ℝ) (N ppr : ℕ) :
    spiroSimplePoint F M p N ppr 0 = (1 - M / F + p * (M / F), 0) := by
  simp [spiroSimplePoint]

theorem spiro_last_point_closes (F M : ℕ) (p : ℝ) (N ppr : ℕ)
    (hF : 0 < F) (hM : 0 < M) (hppr : 0 < ppr) (hN : 0 < N)
    (hdvd : (Nat.gcd F M : ℕ) * N = M) :
    spiroSimplePoint (F : ℝ) (M : ℝ) p N ppr (ppr * N) =
      (1 - (M : ℝ) / F + p * ((M : ℝ) / F), 0) := by
  obtain ⟨a, ha⟩ : Nat.gcd F M ∣ F := Nat.gcd_dvd_left F M
  have hgpos : 0 < Nat.gcd F M := Nat.gcd_pos_of_pos_right F hM
  have hnum_ne : (((ppr * N : ℕ)) : ℝ) ≠ 0 :=
    Nat.cast_ne_zero.mpr (by positivity)
  have hFr : ((F : ℕ) : ℝ) ≠ 0 := by positivity
  have hMr : ((M : ℕ) : ℝ) ≠ 0 := by positivity
  have hgr : ((Nat.gcd F M : ℕ) : ℝ) ≠ 0 := by positivity
  have hNr : ((N : ℕ) : ℝ) ≠ 0 := by positivity
  simp only [spiroSimplePoint]
  have ht : (((ppr * N : ℕ) : ℝ) / ((ppr * N : ℕ) : ℝ)) * (2 * Real.pi * (N : ℝ)) =
      (N : ℝ) * (2 * Real.pi) := by
    rw [div_self hnum_ne]
    ring
  rw [ht]
  have harg : (1 - (M : ℝ) / (F : ℝ)) * ((N : ℝ) * (2 * Real.pi)) / ((M : ℝ) / (F : ℝ)) =
      (((a : ℤ) - (N : ℤ) : ℤ) : ℝ) * (2 * Real.pi) := by
    have hFcast : ((F : ℕ) : ℝ) = ((Nat.gcd F M : ℕ) : ℝ) * (a : ℝ) := by
      exact_mod_cast congrArg (Nat.cast (R := ℝ)) ha
    have hMcast : ((M : ℕ) : ℝ) = ((Nat.gcd F M : ℕ) : ℝ) * (N : ℝ) := by
      exact_mod_cast congrArg (Nat.cast (R := ℝ)) hdvd.symm
    have har : ((a : ℕ) : ℝ) ≠ 0 := by
      rcases Nat.eq_zero_or_pos a with h | h
      · rw [h, Nat.mul_zero] at ha
        omega
      · positivity
    rw [hFcast, hMcast]
    push_cast
    field_simp
    ring
  rw [harg]
  have hcos1 : Real.cos ((N : ℝ) * (2 * Real.pi)) = 1 := Real.cos_nat_mul_two_pi N
  have hsin1 : Real.sin ((N : ℝ) * (2 * Real.pi)) = 0 := by
    have h2 : ((N : ℝ)) * (2 * Real.pi) = (((2 * N : ℤ)) : ℝ) * Real.pi := by
      push_cast
      ring
    rw [h2]
    exact Real.sin_int_mul_pi (2 * N)
  have hcos2 : Real.cos ((((a : ℤ) - (N : ℤ) : ℤ) : ℝ) * (2 * Real.pi)) = 1 :=
    Real.cos_int_mul_two_pi ((a : ℤ) - (N : ℤ))
  have hsin2 : Real.sin ((((a : ℤ) - (N : ℤ) : ℤ) : ℝ) * (2 * Real.pi)) = 0 := by
    have h2 : (((a : ℤ) - (N : ℤ) : ℤ) : ℝ) * (2 * Real.pi) =
        (((2 * ((a : ℤ) - (N : ℤ)) : ℤ)) : ℝ) * Real.pi := by
      push_cast
      ring
    rw [h2]
    exact Real.sin_int_mul_pi (2 * ((a : ℤ) - (N : ℤ)))
  rw [hcos1, hsin1, hcos2, hsin2]
  norm_num

/-- C5: for positive integer tooth counts, generating the two-wheel curve
with the rotation count produced by the rotation closure calculator yields
a point list whose first and last points coincide within `1e-6` (they are
in fact exactly equal in the real-number model). -/
theorem C5_round_trip_closure (F M ppr N : ℕ) (p : ℝ)
    (hF : 0 < F) (hM : 0 < M) (hppr : 0 < ppr)
    (hN : calculate_required_rotations (F : ℚ) (M : ℚ) = (N : ℤ)) :
    |(((generate_spirograph_simple (F : ℝ) (M : ℝ) p N ppr).getD 0 (0, 0)).1 -
      ((generate_spirograph_simple (F : ℝ) (M : ℝ) p N ppr).getD (ppr * N) (0, 0)).1)|
      ≤ 1 / 1000000 ∧
    |(((generate_spirograph_simple (F : ℝ) (M : ℝ) p N ppr).getD 0 (0, 0)).2 -
      ((generate_spirograph_simple (F : ℝ) (M : ℝ) p N ppr).getD (ppr * N) (0, 0)).2)|
      ≤ 1 / 1000000 := by
  have hcalc := calc_required_natCast F M hM
  rw [hcalc] at hN
  have hNg : M / Nat.gcd F M = N := by exact_mod_cast hN
  have hgpos : 0 < Nat.gcd F M := Nat.gcd_pos_of_pos_right F hM
  have hdvd : Nat.gcd F M * N = M := by
    rw [← hNg]
    exact Nat.mul_div_cancel' (Nat.gcd_dvd_right F M)
  have hNpos : 0 < N := by
    rcases Nat.eq_zero_or_pos N with h | h
    · rw [h, Nat.mul_zero] at hdvd
      omega
    · exact h
  have h0 : (generate_spirograph_simple (F : ℝ) (M : ℝ) p N ppr).getD 0 (0, 0) =
      spiroSimplePoint (F : ℝ) (M : ℝ) p N ppr 0 :=
    getD_range_map _ _ _ _ (by omega)
  have hL : (generate_spirograph_simple (F : ℝ) (M : ℝ) p N ppr).getD (ppr * N) (0, 0) =
      spiroSimplePoint (F : ℝ) (M : ℝ) p N ppr (ppr * N) :=
    getD_range_map _ _ _ _ (by omega)
  rw [h0, hL, spiro_first_point, spiro_last_point_closes F M p N ppr hF hM hppr hNpos hdvd]
  norm_num

/-- Witness for C5 at `F = 4`, `M = 2`, `ppr = 1`, `p = 1/2` (the closure
calculator gives `N = 1`). -/
theorem C5_round_trip_closure_witness :
    (0 < 4 ∧ 0 < 2 ∧ 0 < 1 ∧ calculate_required_rotations (4 : ℚ) (2 : ℚ) = (1 : ℤ)) ∧
    |(((generate_spirograph_simple ((4 : ℕ) : ℝ) ((2 : ℕ) : ℝ) (1/2) 1 1).getD 0 (0, 0)).1 -
      ((generate_spirograph_simple ((4 : ℕ) : ℝ) ((2 : ℕ) : ℝ) (1/2) 1 1).getD (1 * 1) (0, 0)).1)|
      ≤ 1 / 1000000 :=
  ⟨⟨by norm_num, by norm_num, by norm_num, by decide⟩,
   (C5_round_trip_closure 4 2 1 1 (1/2) (by norm_num) (by norm_num) (by norm_num)
     (by decide)).1⟩

/-- Witness for C4 at `F = 96`, `M = 36`, `p = 7/10`, `N = 3`, `ppr = 2`. -/
theorem C4_two_wheel_points_witness :
    ((0 : ℝ) < 96 ∧ (0 : ℝ) < 36 ∧ (0 : ℝ) ≤ 7/10 ∧ 0 < 3 ∧ 0 < 2) ∧
    (generate_spirograph_simple 96 36 (7/10) 3 2).length = 2 * 3 + 1 :=
  ⟨⟨by norm_num, by norm_num, by norm_num, by norm_num, by norm_num⟩,
   (C4_two_wheel_points 96 36 (7/10) (by norm_num) (by norm_num) (by norm_num)
     3 2 (by norm_num) (by norm_num)).1⟩

theorem chain2_wheel_data_eval :
    buildWheelData [⟨2, none, none, none⟩, ⟨1, none, none, some 1⟩] =
      [⟨1, 0, 0⟩, ⟨1/2, 0, 1⟩] := by
  simp [buildWheelData, List.range_succ, List.getD]

theorem chain2_acc_eval :
    chainAcc [⟨1, 0, 0⟩, ⟨1/2, 0, 1⟩] Real.pi 1 = ((-(1/2 : ℝ), 0), Real.pi) := by
  simp [chainAcc, List.getD, Real.cos_pi, Real.sin_pi]
  norm_num

theorem chain2_pos_eval :
    calculate_chain_position [⟨1, 0, 0⟩, ⟨1/2, 0, 1⟩] 1 1 Real.pi = (0, 0) := by
  have h2pi : Real.pi + Real.pi = 2 * Real.pi := by ring
  unfold calculate_chain_position
  rw [chain2_acc_eval]
  simp [List.getD, h2pi, Real.cos_two_pi, Real.sin_two_pi]

theorem simple_point_eval_pi : spiroSimplePoint (2 : ℝ) 1 1 1 4 2 = (-1, 0) := by
  unfold spiroSimplePoint
  simp only []
  have h1 : ((2 : ℕ) : ℝ) / ((4 * 1 : ℕ) : ℝ) * (2 * Real.pi * ((1 : ℕ) : ℝ)) = Real.pi := by
    push_cast
    ring
  rw [h1]
  have h2 : ((1 : ℝ) - 1 / 2) * Real.pi / ((1 : ℝ) / 2) = Real.pi := by
    field_simp
    norm_num
  rw [h2, Real.cos_pi, Real.sin_pi]
  norm_num

theorem multi_point_eval_pi :
    (generate_spirograph_multi [⟨2, none, none, none⟩, ⟨1, none, none, some 1⟩] 1 4).getD 2
      (0, 0) = (0, 0) := by
  unfold generate_spirograph_multi
  simp only []
  rw [chain2_wheel_data_eval]
  rw [getD_range_map _ _ _ _ (by norm_num)]
  have h1 : ((2 : ℕ) : ℝ) / ((4 * 1 : ℕ) : ℝ) * (2 * Real.pi * ((1 : ℕ) : ℝ)) = Real.pi := by
    push_cast
    ring
  simp only [List.length_cons, List.length_nil]
  have h21 : (2 - 1 : ℕ) = 1 := rfl
  rw [h21, h1]
  simp only [List.getD, List.getElem?_cons_succ, List.getElem?_cons_zero, Option.getD_some]
  exact chain2_pos_eval

/-- C1: the N-wheel chain model does not reduce to the two-wheel closed
form on a 2-wheel chain.  For the chain fixed(2 teeth), moving(1 tooth,
penOffset 1), with one rotation and 4 points per rotation, the chain
model's point at sample index 2 is `(0, 0)` while the two-wheel model's
point there is `(-1, 0)`; the difference exceeds any floating-point
tolerance (in particular `1e-6`).  Both sides are evaluated from the code;
the chain model's pen phase is `t + ((R-r)/r)·t = (R/r)·t` with `+sin`,
whereas the two-wheel formula uses `((R-r)/r)·t` with `-sin`. -/
theorem C1_chain_vs_two_wheel :
    (generate_spirograph_multi [⟨2, none, none, none⟩, ⟨1, none, none, some 1⟩] 1 4).getD 2
      (0, 0) = (0, 0) ∧
    (generate_spirograph_simple 2 1 1 1 4).getD 2 (0, 0) = (-1, 0) ∧
    1 / 1000000 <
      |((generate_spirograph_multi [⟨2, none, none, none⟩, ⟨1, none, none, some 1⟩] 1 4).getD 2
          (0, 0)).1 -
        ((generate_spirograph_simple 2 1 1 1 4).getD 2 (0, 0)).1| := by
  have hs : (generate_spirograph_simple (2 : ℝ) 1 1 1 4).getD 2 (0, 0) = (-1, 0) := by
    unfold generate_spirograph_simple
    rw [getD_range_map _ _ _ _ (by norm_num)]
    exact simple_point_eval_pi
  refine ⟨multi_point_eval_pi, hs, ?_⟩
  rw [multi_point_eval_pi, hs]
  norm_num

/-- C7: curve generation does not raise on the degenerate inputs: equal
tooth counts (`fixed == moving`), zero pen offset, and fractional moving
teeth (`64.5`); in each case the checked two-wheel generator (which makes
Python's `ZeroDivisionError` cases explicit) returns `some` of a non-empty
point list. -/
theorem C7_degenerate_generation (F p : ℝ) (hF : 0 < F) (hp : 0 ≤ p)
    (N ppr : ℕ) (hN : 0 < N) (hppr : 0 < ppr) :
    (∃ l, generate_spirograph_simple_checked F F p N ppr = some l ∧ l ≠ []) ∧
    (∀ M : ℝ, 0 < M →
      ∃ l, generate_spirograph_simple_checked F M 0 N ppr = some l ∧ l ≠ []) ∧
    (∃ l, generate_spirograph_simple_checked F (129/2) p N ppr = some l ∧ l ≠ []) := by
  have gen_ne : ∀ (M q : ℝ), generate_spirograph_simple F M q N ppr ≠ [] := by
    intro M q
    unfold generate_spirograph_simple
    simp
  have hchk : ∀ (M q : ℝ), 0 < M →
      generate_spirograph_simple_checked F M q N ppr =
        some (generate_spirograph_simple F M q N ppr) := by
    intro M q hM
    unfold generate_spirograph_simple_checked
    rw [if_neg (ne_of_gt hF), if_neg (div_ne_zero (ne_of_gt hM) (ne_of_gt hF)),
      if_neg (by positivity : ¬ ppr * N = 0)]
  exact ⟨⟨_, hchk F p hF, gen_ne F p⟩,
    fun M hM => ⟨_, hchk M 0 hM, gen_ne M 0⟩,
    ⟨_, hchk (129/2) p (by norm_num), gen_ne (129/2) p⟩⟩

/-- Witness for C7 at `F = 50`, `p = 1/2`, `N = 1`, `ppr = 360`. -/
theorem C7_degenerate_generation_witness :
    ((0 : ℝ) < 50 ∧ (0 : ℝ) ≤ 1/2 ∧ 0 < 1 ∧ 0 < 360) ∧
    (∃ l, generate_spirograph_simple_checked 50 50 (1/2) 1 360 = some l ∧ l ≠ []) :=
  ⟨⟨by norm_num, by norm_num, by norm_num, by norm_num⟩,
   (C7_degenerate_generation 50 (1/2) (by norm_num) (by norm_num) 1 360
     (by norm_num) (by norm_num)).1⟩

theorem easing_boundary (name : String) (f : ℚ → ℚ) (h : easingLookup name = some f) :
    f 0 = 0 ∧ f 1 = 1 := by
  unfold easingLookup at h
  split_ifs at h <;> (cases h; constructor) <;>
    simp [linear, ease_in_out_cubic, ease_in_quadratic, ease_out_quadratic]
  norm_num [ease_in_out_cubic]

theorem interpolate_value_ok (a b t : ℚ) (easing : String) (f : ℚ → ℚ)
    (hey : easingLookup easing = some f) :
    interpolate_value a b t easing = Except.ok (a + (b - a) * f t) := by
  unfold interpolate_value get_easing_function
  rw [hey]
  rfl

theorem interpolate_wheel_ok (wa wb : Wheel) (t : ℚ) (easing : String) (f : ℚ → ℚ)
    (hey : easingLookup easing = some f)
    (ty : String) (ta tb : ℚ) (hty : wa.type = some ty)
    (hta : wa.teeth = some ta) (htb : wb.teeth = some tb) :
    interpolate_wheel wa wb t easing = Except.ok (wheelPure wa wb t f) := by
  have hiv : ∀ x y : ℚ, interpolate_value x y t easing = Except.ok (x + (y - x) * f t) :=
    fun x y => interpolate_value_ok x y t easing f hey
  unfold interpolate_wheel wheelPure
  rw [hty, hta, htb]
  rcases hra : wa.radius with _ | ra <;> rcases hrb : wb.radius with _ | rb <;>
    rcases hpa : wa.pen_offset with _ | pa <;> rcases hpb : wb.pen_offset with _ | pb <;>
      simp [req, hiv, hra, hrb, hpa, hpb, Except.bind, Except.pure, Option.getD] <;> rfl

theorem buildSteps_eq_ok (f : ℕ → Except String Config) (g : ℕ → Config) (n : ℕ)
    (h : ∀ i, i < n → f i = Except.ok (g i)) :
    buildSteps f n = Except.ok ((List.range n).map g) := by
  induction n with
  | zero => simp [buildSteps]
  | succ m ih =>
    unfold buildSteps
    rw [ih (fun i hi => h i (by omega)), h m (by omega)]
    simp only [List.range_succ, List.map_append, List.map_cons, List.map_nil]
    rfl



theorem pyTrunc_natCast (n : ℕ) : pyTrunc (n : ℚ) = n := by
  unfold pyTrunc
  rw [if_pos (by positivity), ratFloor_eq]
  simp

theorem hexDigitVal_lt (c : Char) (v : ℕ) (h : hexDigitVal c = some v) : v < 16 := by
  unfold hexDigitVal at h
  split_ifs at h <;> simp_all <;> omega

theorem hexDigitVal_hexDigitChar (n : ℕ) (h : n < 16) :
    hexDigitVal (hexDigitChar n) = some n := by
  interval_cases n <;> decide

theorem pyIntBase16_pair (d1 d2 : ℕ) (h1 : d1 < 16) (h2 : d2 < 16) :
    pyIntBase16 [hexDigitChar d1, hexDigitChar d2] = Except.ok (16 * d1 + d2) := by
  simp [pyIntBase16, List.foldlM, hexDigitVal_hexDigitChar d1 h1,
    hexDigitVal_hexDigitChar d2 h2]
  rfl

theorem pyIntBase16_two_hex (c1 c2 : Char) (h1 : (hexDigitVal c1).isSome)
    (h2 : (hexDigitVal c2).isSome) :
    ∃ n, pyIntBase16 [c1, c2] = Except.ok n ∧ n < 256 := by
  obtain ⟨v1, hv1⟩ := Option.isSome_iff_exists.mp h1
  obtain ⟨v2, hv2⟩ := Option.isSome_iff_exists.mp h2
  refine ⟨16 * v1 + v2, ?_, ?_⟩
  · simp [pyIntBase16, List.foldlM, hv1, hv2]
    rfl
  · have := hexDigitVal_lt c1 v1 hv1
    have := hexDigitVal_lt c2 v2 hv2
    omega

theorem hexRepAux_lt16 (fuel n : ℕ) (hf : 0 < fuel) (h : n < 16) :
    hexRepAux fuel n = [hexDigitChar n] := by
  cases fuel with
  | zero => omega
  | succ m =>
    unfold hexRepAux
    rw [if_pos h]

theorem hexRep_lt16 (n : ℕ) (h : n < 16) : hexRep n = [hexDigitChar n] := by
  unfold hexRep
  exact hexRepAux_lt16 (n + 1) n (by omega) h

theorem formatHex02_eval (n : ℕ) (h : n < 256) :
    formatHex02 (n : ℤ) = ⟨[hexDigitChar (n / 16), hexDigitChar (n % 16)]⟩ := by
  unfold formatHex02
  have hna : ((n : ℤ)).natAbs = n := Int.natAbs_ofNat n
  have hneg : ¬ ((n : ℤ) < 0) := by omega
  rw [hna, if_neg hneg]
  rcases Nat.lt_or_ge n 16 with h16 | h16
  · rw [hexRep_lt16 n h16]
    have hd : n / 16 = 0 := Nat.div_eq_of_lt h16
    have hm : n % 16 = n := Nat.mod_eq_of_lt h16
    rw [hd, hm]
    rfl
  · unfold hexRep hexRepAux
    rw [if_neg (by omega)]
    rw [hexRepAux_lt16 n (n / 16) (by omega) (by omega)]
    rfl

theorem parse_formatHex02 (n : ℕ) (h : n < 256) :
    pyIntBase16 (formatHex02 (n : ℤ)).toList = Except.ok n := by
  rw [formatHex02_eval n h]
  show pyIntBase16 [hexDigitChar (n / 16), hexDigitChar (n % 16)] = Except.ok n
  rw [pyIntBase16_pair (n / 16) (n % 16) (by omega) (by omega)]
  congr 1
  omega

theorem formatHex02_length (n : ℕ) (h : n < 256) :
    (formatHex02 (n : ℤ)).toList.length = 2 := by
  rw [formatHex02_eval n h]
  rfl



theorem isHexColor_elim (c : String) (hc : isHexColor c = true) :
    ∃ a1 a2 a3 a4 a5 a6 : Char,
      (c.data = ['#', a1, a2, a3, a4, a5, a6] ∨
        c.data = ['#', a1, a2, a3, a4, a5, a6, '\n']) ∧
      (hexDigitVal a1).isSome ∧ (hexDigitVal a2).isSome ∧
      (hexDigitVal a3).isSome ∧ (hexDigitVal a4).isSome ∧
      (hexDigitVal a5).isSome ∧ (hexDigitVal a6).isSome := by
  unfold isHexColor at hc
  split at hc
  next a1 a2 a3 a4 a5 a6 heq =>
    simp only [Bool.and_eq_true] at hc
    exact ⟨a1, a2, a3, a4, a5, a6, Or.inl heq, hc.1.1.1.1.1, hc.1.1.1.1.2,
      hc.1.1.1.2, hc.1.1.2, hc.1.2, hc.2⟩
  next a1 a2 a3 a4 a5 a6 nl heq =>
    simp only [Bool.and_eq_true, decide_eq_true_eq] at hc
    obtain ⟨hnl, hhex⟩ := hc
    subst hnl
    exact ⟨a1, a2, a3, a4, a5, a6, Or.inr heq, hhex.1.1.1.1.1, hhex.1.1.1.1.2,
      hhex.1.1.1.2, hhex.1.1.2, hhex.1.2, hhex.2⟩
  next => simp_all



theorem interpolate_color_ok (ca cb : String) (t : ℚ) (easing : String) (f : ℚ → ℚ)
    (hey : easingLookup easing = some f)
    (hca : isHexColor ca = true) (hcb : isHexColor cb = true) :
    interpolate_color ca cb t easing = Except.ok (colorPure ca cb t f) := by
  have hiv : ∀ x y : ℚ, interpolate_value x y t easing = Except.ok (x + (y - x) * f t) :=
    fun x y => interpolate_value_ok x y t easing f hey
  obtain ⟨a1, a2, a3, a4, a5, a6, hla, ha1, ha2, ha3, ha4, ha5, ha6⟩ := isHexColor_elim ca hca
  obtain ⟨b1, b2, b3, b4, b5, b6, hlb, hb1, hb2, hb3, hb4, hb5, hb6⟩ := isHexColor_elim cb hcb
  have sa1 : strSlice ca 1 3 = [a1, a2] := by
    rcases hla with h | h <;> simp [strSlice, String.toList, h]
  have sa2 : strSlice ca 3 5 = [a3, a4] := by
    rcases hla with h | h <;> simp [strSlice, String.toList, h]
  have sa3 : strSlice ca 5 7 = [a5, a6] := by
    rcases hla with h | h <;> simp [strSlice, String.toList, h]
  have sb1 : strSlice cb 1 3 = [b1, b2] := by
    rcases hlb with h | h <;> simp [strSlice, String.toList, h]
  have sb2 : strSlice cb 3 5 = [b3, b4] := by
    rcases hlb with h | h <;> simp [strSlice, String.toList, h]
  have sb3 : strSlice cb 5 7 = [b5, b6] := by
    rcases hlb with h | h <;> simp [strSlice, String.toList, h]
  obtain ⟨vr1, hvr1, _⟩ := pyIntBase16_two_hex a1 a2 ha1 ha2
  obtain ⟨vg1, hvg1, _⟩ := pyIntBase16_two_hex a3 a4 ha3 ha4
  obtain ⟨vb1, hvb1, _⟩ := pyIntBase16_two_hex a5 a6 ha5 ha6
  obtain ⟨vr2, hvr2, _⟩ := pyIntBase16_two_hex b1 b2 hb1 hb2
  obtain ⟨vg2, hvg2, _⟩ := pyIntBase16_two_hex b3 b4 hb3 hb4
  obtain ⟨vb2, hvb2, _⟩ := pyIntBase16_two_hex b5 b6 hb5 hb6
  unfold interpolate_color colorPure
  rw [sa1, sa2, sa3, sb1, sb2, sb3, hvr1, hvg1, hvb1, hvr2, hvg2, hvb2]
  simp [hiv, Except.toOption]
  rfl



theorem ebind_ok {α : Type} (x : α) (g : α → Except String α) :
    (Except.ok x >>= g) = g x := rfl

theorem ebind_ok2 {α β : Type} (x : α) (g : α → Except String β) :
    (Except.ok x >>= g) = g x := rfl

theorem req_some {α : Type} (x : α) (m : String) : req (some x) m = Except.ok x := rfl

theorem wheelPure_teeth (wa wb : Wheel) (t : ℚ) (f : ℚ → ℚ) :
    (wheelPure wa wb t f).teeth =
      some (wa.teeth.getD 0 + (wb.teeth.getD 0 - wa.teeth.getD 0) * f t) := rfl

set_option maxHeartbeats 3200000 in
theorem interpStep_ok (a b : Config) (steps : ℕ) (easing strategy : String) (i : ℕ)
    (f : ℚ → ℚ) (hey : easingLookup easing = some f)
    (hAfty : (firstOfType a.wheels "fixed").type.isSome)
    (hAmty : (firstOfType a.wheels "moving").type.isSome)
    (hAft : (firstOfType a.wheels "fixed").teeth.isSome)
    (hAmt : (firstOfType a.wheels "moving").teeth.isSome)
    (hBft : (firstOfType b.wheels "fixed").teeth.isSome)
    (hBmt : (firstOfType b.wheels "moving").teeth.isSome)
    (hcol : ∀ ca cb, a.color = some ca → b.color = some cb →
      isHexColor ca = true ∧ isHexColor cb = true) :
    interpStep a b steps easing strategy i =
      Except.ok (stepPure a b steps f strategy i) := by
  have hiv : ∀ x y : ℚ,
      interpolate_value x y (interpT steps i) easing =
        Except.ok (x + (y - x) * f (interpT steps i)) :=
    fun x y => interpolate_value_ok x y (interpT steps i) easing f hey
  obtain ⟨ty0, hty0⟩ := Option.isSome_iff_exists.mp hAfty
  obtain ⟨ty1, hty1⟩ := Option.isSome_iff_exists.mp hAmty
  obtain ⟨ta0, hta0⟩ := Option.isSome_iff_exists.mp hAft
  obtain ⟨ta1, hta1⟩ := Option.isSome_iff_exists.mp hAmt
  obtain ⟨tb0, htb0⟩ := Option.isSome_iff_exists.mp hBft
  obtain ⟨tb1, htb1⟩ := Option.isSome_iff_exists.mp hBmt
  have hw0 := interpolate_wheel_ok (firstOfType a.wheels "fixed")
    (firstOfType b.wheels "fixed") (interpT steps i) easing f hey ty0 ta0 tb0
    hty0 hta0 htb0
  have hw1 := interpolate_wheel_ok (firstOfType a.wheels "moving")
    (firstOfType b.wheels "moving") (interpT steps i) easing f hey ty1 ta1 tb1
    hty1 hta1 htb1
  have hcolok : ∀ ca cb, a.color = some ca → b.color = some cb →
      interpolate_color ca cb (interpT steps i) easing =
        Except.ok (colorPure ca cb (interpT steps i) f) := by
    intro ca cb h1 h2
    obtain ⟨x, y⟩ := hcol ca cb h1 h2
    exact interpolate_color_ok ca cb (interpT steps i) easing f hey x y
  unfold interpStep stepPure
  rcases hac : a.color with _ | ca <;> rcases hbc : b.color with _ | cb <;>
    rcases hal : a.line_width with _ | la <;> rcases hbl : b.line_width with _ | lb <;>
    rcases har : a.rotation_count with _ | rc <;>
    by_cases hs1 : strategy = "auto" <;> by_cases hs2 : strategy = "max" <;>
    by_cases hs3 : strategy = "fixed" <;>
      simp [hw0, hw1, hs1, hs2, hs3, hac, hbc, hal, hbl, har, wheelPure_teeth,
        req_some, hiv, hcolok, ebind_ok2]



theorem interpolate_configs_ok (a b : Config) (steps : ℕ) (easing strategy : String)
    (f : ℚ → ℚ) (hey : easingLookup easing = some f) (hsteps : 2 ≤ steps)
    (hAfty : (firstOfType a.wheels "fixed").type.isSome)
    (hAmty : (firstOfType a.wheels "moving").type.isSome)
    (hAft : (firstOfType a.wheels "fixed").teeth.isSome)
    (hAmt : (firstOfType a.wheels "moving").teeth.isSome)
    (hBft : (firstOfType b.wheels "fixed").teeth.isSome)
    (hBmt : (firstOfType b.wheels "moving").teeth.isSome)
    (hcol : ∀ ca cb, a.color = some ca → b.color = some cb →
      isHexColor ca = true ∧ isHexColor cb = true) :
    interpolate_configs a b steps easing strategy =
      Except.ok ((List.range steps).map (stepPure a b steps f strategy)) := by
  unfold interpolate_configs
  rw [if_neg (by omega)]
  exact buildSteps_eq_ok _ _ steps (fun i _ => interpStep_ok a b steps easing strategy i
    f hey hAfty hAmty hAft hAmt hBft hBmt hcol)

theorem colorPure_boundary_channels (ca cb : String) (f : ℚ → ℚ) (t : ℚ)
    (hca : isHexColor ca = true) (hcb : isHexColor cb = true) :
    (f t = 0 →
      pyIntBase16 (strSlice (colorPure ca cb t f) 1 3) = pyIntBase16 (strSlice ca 1 3) ∧
      pyIntBase16 (strSlice (colorPure ca cb t f) 3 5) = pyIntBase16 (strSlice ca 3 5) ∧
      pyIntBase16 (strSlice (colorPure ca cb t f) 5 7) = pyIntBase16 (strSlice ca 5 7)) ∧
    (f t = 1 →
      pyIntBase16 (strSlice (colorPure ca cb t f) 1 3) = pyIntBase16 (strSlice cb 1 3) ∧
      pyIntBase16 (strSlice (colorPure ca cb t f) 3 5) = pyIntBase16 (strSlice cb 3 5) ∧
      pyIntBase16 (strSlice (colorPure ca cb t f) 5 7) = pyIntBase16 (strSlice cb 5 7)) := by
  obtain ⟨a1, a2, a3, a4, a5, a6, hla, ha1, ha2, ha3, ha4, ha5, ha6⟩ := isHexColor_elim ca hca
  obtain ⟨b1, b2, b3, b4, b5, b6, hlb, hb1, hb2, hb3, hb4, hb5, hb6⟩ := isHexColor_elim cb hcb
  have sa1 : strSlice ca 1 3 = [a1, a2] := by
    rcases hla with h | h <;> simp [strSlice, String.toList, h]
  have sa2 : strSlice ca 3 5 = [a3, a4] := by
    rcases hla with h | h <;> simp [strSlice, String.toList, h]
  have sa3 : strSlice ca 5 7 = [a5, a6] := by
    rcases hla with h | h <;> simp [strSlice, String.toList, h]
  have sb1 : strSlice cb 1 3 = [b1, b2] := by
    rcases hlb with h | h <;> simp [strSlice, String.toList, h]
  have sb2 : strSlice cb 3 5 = [b3, b4] := by
    rcases hlb with h | h <;> simp [strSlice, String.toList, h]
  have sb3 : strSlice cb 5 7 = [b5, b6] := by
    rcases hlb with h | h <;> simp [strSlice, String.toList, h]
  obtain ⟨vr1, hvr1, hvr1lt⟩ := pyIntBase16_two_hex a1 a2 ha1 ha2
  obtain ⟨vg1, hvg1, hvg1lt⟩ := pyIntBase16_two_hex a3 a4 ha3 ha4
  obtain ⟨vb1, hvb1, hvb1lt⟩ := pyIntBase16_two_hex a5 a6 ha5 ha6
  obtain ⟨vr2, hvr2, hvr2lt⟩ := pyIntBase16_two_hex b1 b2 hb1 hb2
  obtain ⟨vg2, hvg2, hvg2lt⟩ := pyIntBase16_two_hex b3 b4 hb3 hb4
  obtain ⟨vb2, hvb2, hvb2lt⟩ := pyIntBase16_two_hex b5 b6 hb5 hb6
  have key : ∀ r g bb : ℕ, r < 256 → g < 256 → bb < 256 →
      strSlice ("#" ++ formatHex02 (r : ℤ) ++ formatHex02 (g : ℤ) ++
        formatHex02 (bb : ℤ)) 1 3 = [hexDigitChar (r / 16), hexDigitChar (r % 16)] ∧
      strSlice ("#" ++ formatHex02 (r : ℤ) ++ formatHex02 (g : ℤ) ++
        formatHex02 (bb : ℤ)) 3 5 = [hexDigitChar (g / 16), hexDigitChar (g % 16)] ∧
      strSlice ("#" ++ formatHex02 (r : ℤ) ++ formatHex02 (g : ℤ) ++
        formatHex02 (bb : ℤ)) 5 7 = [hexDigitChar (bb / 16), hexDigitChar (bb % 16)] := by
    intro r g bb hr hg hbb
    rw [formatHex02_eval r hr, formatHex02_eval g hg, formatHex02_eval bb hbb]
    refine ⟨?_, ?_, ?_⟩ <;> simp [strSlice, String.toList]
  constructor
  · intro hf0
    unfold colorPure
    rw [sa1, sa2, sa3, sb1, sb2, sb3, hvr1, hvg1, hvb1, hvr2, hvg2, hvb2]
    simp only [Except.toOption, Option.getD_some, hf0, mul_zero, add_zero]
    have h1 : pyTrunc ((vr1 : ℚ)) = (vr1 : ℤ) := pyTrunc_natCast vr1
    have h2 : pyTrunc ((vg1 : ℚ)) = (vg1 : ℤ) := pyTrunc_natCast vg1
    have h3 : pyTrunc ((vb1 : ℚ)) = (vb1 : ℤ) := pyTrunc_natCast vb1
    rw [h1, h2, h3]
    obtain ⟨k1, k2, k3⟩ := key vr1 vg1 vb1 hvr1lt hvg1lt hvb1lt
    rw [k1, k2, k3]
    rw [pyIntBase16_pair _ _ (by omega) (by omega),
      pyIntBase16_pair _ _ (by omega) (by omega),
      pyIntBase16_pair _ _ (by omega) (by omega)]
    exact ⟨congrArg Except.ok (Nat.div_add_mod vr1 16),
      congrArg Except.ok (Nat.div_add_mod vg1 16),
      congrArg Except.ok (Nat.div_add_mod vb1 16)⟩
  · intro hf1
    unfold colorPure
    rw [sa1, sa2, sa3, sb1, sb2, sb3, hvr1, hvg1, hvb1, hvr2, hvg2, hvb2]
    simp only [Except.toOption, Option.getD_some, hf1, mul_one]
    have e1 : (vr1 : ℚ) + ((vr2 : ℚ) - vr1) = (vr2 : ℚ) := by ring
    have e2 : (vg1 : ℚ) + ((vg2 : ℚ) - vg1) = (vg2 : ℚ) := by ring
    have e3 : (vb1 : ℚ) + ((vb2 : ℚ) - vb1) = (vb2 : ℚ) := by ring
    rw [e1, e2, e3, pyTrunc_natCast, pyTrunc_natCast, pyTrunc_natCast]
    obtain ⟨k1, k2, k3⟩ := key vr2 vg2 vb2 hvr2lt hvg2lt hvb2lt
    rw [k1, k2, k3]
    rw [pyIntBase16_pair _ _ (by omega) (by omega),
      pyIntBase16_pair _ _ (by omega) (by omega),
      pyIntBase16_pair _ _ (by omega) (by omega)]
    exact ⟨congrArg Except.ok (Nat.div_add_mod vr2 16),
      congrArg Except.ok (Nat.div_add_mod vg2 16),
      congrArg Except.ok (Nat.div_add_mod vb2 16)⟩

theorem interpT_zero (steps : ℕ) (h : 2 ≤ steps) : interpT steps 0 = 0 := by
  unfold interpT
  rw [if_pos (by omega)]
  simp

theorem interpT_last (steps : ℕ) (h : 2 ≤ steps) : interpT steps (steps - 1) = 1 := by
  unfold interpT
  rw [if_pos (by omega)]
  have hc : ((steps - 1 : ℕ) : ℚ) = (steps : ℚ) - 1 := by
    rw [Nat.cast_sub (by omega : 1 ≤ steps)]
    norm_num
  rw [hc]
  apply div_self
  have h2 : (2 : ℚ) ≤ (steps : ℚ) := by exact_mod_cast h
  linarith

/-- C3 (amended): the first configuration emitted by `interpolate_configs`
reproduces every interpolatable field of `config_a` exactly, and the last
reproduces every interpolatable field of `config_b` exactly, for every
recognized easing, every strategy and every per-field policy — with the
single exception of `color` when both inputs carry one: there the boundary
color is the same RGB value re-encoded in uppercase hexadecimal (equal
channel values; the string itself may differ in hex-digit case). -/
theorem C3_interpolation_boundary (a b : Config) (steps : ℕ)
    (easing strategy : String) (f : ℚ → ℚ)
    (hey : easingLookup easing = some f) (hsteps : 2 ≤ steps)
    (hAfty : (firstOfType a.wheels "fixed").type.isSome)
    (hAmty : (firstOfType a.wheels "moving").type.isSome)
    (hAft : (firstOfType a.wheels "fixed").teeth.isSome)
    (hAmt : (firstOfType a.wheels "moving").teeth.isSome)
    (hBft : (firstOfType b.wheels "fixed").teeth.isSome)
    (hBmt : (firstOfType b.wheels "moving").teeth.isSome)
    (hcol : ∀ ca cb, a.color = some ca → b.color = some cb →
      isHexColor ca = true ∧ isHexColor cb = true) :
    ∃ cfgs, interpolate_configs a b steps easing strategy = Except.ok cfgs ∧
      ((∀ na, a.name = some na → (cfgs.getD 0 default).name = some na) ∧
       (∀ v, (firstOfType a.wheels "fixed").teeth = some v →
         ((cfgs.getD 0 default).wheels.getD 0 default).teeth = some v) ∧
       (∀ v, (firstOfType a.wheels "fixed").radius = some v →
         ((cfgs.getD 0 default).wheels.getD 0 default).radius = some v) ∧
       (∀ v, (firstOfType a.wheels "moving").teeth = some v →
         ((cfgs.getD 0 default).wheels.getD 1 default).teeth = some v) ∧
       (∀ v, (firstOfType a.wheels "moving").radius = some v →
         ((cfgs.getD 0 default).wheels.getD 1 default).radius = some v) ∧
       (∀ v, (firstOfType a.wheels "moving").pen_offset = some v →
         ((cfgs.getD 0 default).wheels.getD 1 default).pen_offset = some v) ∧
       (∀ v, a.line_width = some v → (cfgs.getD 0 default).line_width = some v) ∧
       (∀ ca, a.color = some ca → b.color = none →
         (cfgs.getD 0 default).color = some ca) ∧
       (∀ ca cb, a.color = some ca → b.color = some cb →
         ∃ s, (cfgs.getD 0 default).color = some s ∧
           pyIntBase16 (strSlice s 1 3) = pyIntBase16 (strSlice ca 1 3) ∧
           pyIntBase16 (strSlice s 3 5) = pyIntBase16 (strSlice ca 3 5) ∧
           pyIntBase16 (strSlice s 5 7) = pyIntBase16 (strSlice ca 5 7))) ∧
      ((∀ nb, b.name = some nb → (cfgs.getD (steps - 1) default).name = some nb) ∧
       (∀ v, (firstOfType b.wheels "fixed").teeth = some v →
         ((cfgs.getD (steps - 1) default).wheels.getD 0 default).teeth = some v) ∧
       (∀ v, (firstOfType b.wheels "fixed").radius = some v →
         ((cfgs.getD (steps - 1) default).wheels.getD 0 default).radius = some v) ∧
       (∀ v, (firstOfType b.wheels "moving").teeth = some v →
         ((cfgs.getD (steps - 1) default).wheels.getD 1 default).teeth = some v) ∧
       (∀ v, (firstOfType b.wheels "moving").radius = some v →
         ((cfgs.getD (steps - 1) default).wheels.getD 1 default).radius = some v) ∧
       (∀ v, (firstOfType b.wheels "moving").pen_offset = some v →
         ((cfgs.getD (steps - 1) default).wheels.getD 1 default).pen_offset = some v) ∧
       (∀ v, b.line_width = some v →
         (cfgs.getD (steps - 1) default).line_width = some v) ∧
       (∀ cb, b.color = some cb → a.color = none →
         (cfgs.getD (steps - 1) default).color = some cb) ∧
       (∀ ca cb, a.color = some ca → b.color = some cb →
         ∃ s, (cfgs.getD (steps - 1) default).color = some s ∧
           pyIntBase16 (strSlice s 1 3) = pyIntBase16 (strSlice cb 1 3) ∧
           pyIntBase16 (strSlice s 3 5) = pyIntBase16 (strSlice cb 3 5) ∧
           pyIntBase16 (strSlice s 5 7) = pyIntBase16 (strSlice cb 5 7))) := by
  have hok := interpolate_configs_ok a b steps easing strategy f hey hsteps
    hAfty hAmty hAft hAmt hBft hBmt hcol
  have hf0 := (easing_boundary easing f hey).1
  have hf1 := (easing_boundary easing f hey).2
  have ht0 := interpT_zero steps hsteps
  have ht1 := interpT_last steps hsteps
  refine ⟨_, hok, ?_, ?_⟩
  · have hget0 : ((List.range steps).map (stepPure a b steps f strategy)).getD 0 default =
        stepPure a b steps f strategy 0 := getD_range_map _ _ _ _ (by omega)
    rw [hget0]
    refine ⟨?_, ?_, ?_, ?_, ?_, ?_, ?_, ?_, ?_⟩
    · intro na hna
      simp [stepPure, hna, ht0]
    · intro v hv
      simp [stepPure, wheelPure, List.getD, hv, ht0, hf0]
    · intro v hv
      rcases hb : (firstOfType b.wheels "fixed").radius with _ | w <;>
        simp [stepPure, wheelPure, List.getD, hv, hb, ht0, hf0]
    · intro v hv
      simp [stepPure, wheelPure, List.getD, hv, ht0, hf0]
    · intro v hv
      rcases hb : (firstOfType b.wheels "moving").radius with _ | w <;>
        simp [stepPure, wheelPure, List.getD, hv, hb, ht0, hf0]
    · intro v hv
      rcases hb : (firstOfType b.wheels "moving").pen_offset with _ | w <;>
        simp [stepPure, wheelPure, List.getD, hv, hb, ht0, hf0]
    · intro v hv
      rcases hb : b.line_width with _ | w <;>
        simp [stepPure, hv, hb, ht0, hf0]
    · intro ca hac hbc
      simp [stepPure, hac, hbc]
    · intro ca cb hac hbc
      obtain ⟨hcaH, hcbH⟩ := hcol ca cb hac hbc
      refine ⟨colorPure ca cb (interpT steps 0) f, by simp [stepPure, hac, hbc], ?_⟩
      exact (colorPure_boundary_channels ca cb f (interpT steps 0) hcaH hcbH).1
        (by rw [ht0, hf0])
  · have hgetL : ((List.range steps).map (stepPure a b steps f strategy)).getD
        (steps - 1) default = stepPure a b steps f strategy (steps - 1) :=
      getD_range_map _ _ _ _ (by omega)
    rw [hgetL]
    have hne : (1 : ℚ) ≠ 0 := by norm_num
    refine ⟨?_, ?_, ?_, ?_, ?_, ?_, ?_, ?_, ?_⟩
    · intro nb hnb
      rcases ha : a.name with _ | na <;>
        simp [stepPure, hnb, ha, ht1, hne]
    · intro v hv
      simp [stepPure, wheelPure, List.getD, hv, ht1, hf1]
    · intro v hv
      rcases ha : (firstOfType a.wheels "fixed").radius with _ | w <;>
        simp [stepPure, wheelPure, List.getD, hv, ha, ht1, hf1]
    · intro v hv
      simp [stepPure, wheelPure, List.getD, hv, ht1, hf1]
    · intro v hv
      rcases ha : (firstOfType a.wheels "moving").radius with _ | w <;>
        simp [stepPure, wheelPure, List.getD, hv, ha, ht1, hf1]
    · intro v hv
      rcases ha : (firstOfType a.wheels "moving").pen_offset with _ | w <;>
        simp [stepPure, wheelPure, List.getD, hv, ha, ht1, hf1]
    · intro v hv
      rcases ha : a.line_width with _ | w <;>
        simp [stepPure, hv, ha, ht1, hf1]
    · intro cb hbc hac
      simp [stepPure, hac, hbc]
    · intro ca cb hac hbc
      obtain ⟨hcaH, hcbH⟩ := hcol ca cb hac hbc
      refine ⟨colorPure ca cb (interpT steps (steps - 1)) f,
        by simp [stepPure, hac, hbc], ?_⟩
      exact (colorPure_boundary_channels ca cb f (interpT steps (steps - 1)) hcaH hcbH).2
        (by rw [ht1, hf1])

set_option maxHeartbeats 2000000 in
/-- Counterexample to C3 as stated: `sampleA` stores its color as
lowercase `"#ff0000"`; the first configuration emitted by
`interpolate_configs` carries color `"#FF0000"` (uppercase re-encoding),
which is not equal to `sampleA`'s color field, so the first emitted
configuration does not reproduce every interpolatable field of the first
input exactly. -/
theorem C3_interpolation_boundary_counterexample :
    sampleA.color = some "#ff0000" ∧
    (interpolate_configs sampleA sampleB 2 "linear" "auto").toOption.map
      (fun l => (l.getD 0 default).color) = some (some "#FF0000") ∧
    some "#FF0000" ≠ sampleA.color := by
  refine ⟨rfl, ?_, by decide⟩
  decide

/-- Witness for C3 at `sampleA`, `sampleB`, `steps = 2`, linear easing,
auto strategy. -/
theorem C3_interpolation_boundary_witness :
    (easingLookup "linear" = some linear ∧ 2 ≤ 2 ∧
     (firstOfType sampleA.wheels "fixed").type.isSome = true ∧
     (firstOfType sampleA.wheels "moving").type.isSome = true ∧
     (firstOfType sampleA.wheels "fixed").teeth.isSome = true ∧
     (firstOfType sampleA.wheels "moving").teeth.isSome = true ∧
     (firstOfType sampleB.wheels "fixed").teeth.isSome = true ∧
     (firstOfType sampleB.wheels "moving").teeth.isSome = true) ∧
    ∃ cfgs, interpolate_configs sampleA sampleB 2 "linear" "auto" = Except.ok cfgs :=
  ⟨⟨rfl, le_refl 2, by decide, by decide, by decide, by decide, by decide, by decide⟩,
   match C3_interpolation_boundary sampleA sampleB 2 "linear" "auto" linear rfl
     (le_refl 2) (by decide) (by decide) (by decide) (by decide) (by decide) (by decide)
     (fun ca cb h1 h2 => by
       simp [sampleA] at h1
       simp [sampleB] at h2
       subst h1
       subst h2
       exact ⟨by decide, by decide⟩) with
   | ⟨cfgs, hok, _⟩ => ⟨cfgs, hok⟩⟩

/-- C6: the rotation count of every emitted configuration follows the
selected strategy: under `auto` it is recomputed by the closure calculator
from that step's interpolated teeth; under `max` it is the greater of the
two inputs' rotation counts (constant across steps); under `fixed` it is
the constant 50; under any other strategy it is `config_a`'s rotation
count verbatim when present, else the `auto` value for that step. -/
theorem C6_rotation_strategies (a b : Config) (steps : ℕ)
    (easing strategy : String) (f : ℚ → ℚ)
    (hey : easingLookup easing = some f) (hsteps : 2 ≤ steps)
    (hAfty : (firstOfType a.wheels "fixed").type.isSome)
    (hAmty : (firstOfType a.wheels "moving").type.isSome)
    (hAft : (firstOfType a.wheels "fixed").teeth.isSome)
    (hAmt : (firstOfType a.wheels "moving").teeth.isSome)
    (hBft : (firstOfType b.wheels "fixed").teeth.isSome)
    (hBmt : (firstOfType b.wheels "moving").teeth.isSome)
    (hcol : ∀ ca cb, a.color = some ca → b.color = some cb →
      isHexColor ca = true ∧ isHexColor cb = true) :
    ∃ cfgs, interpolate_configs a b steps easing strategy = Except.ok cfgs ∧
      cfgs.length = steps ∧
      ∀ i, i < steps →
        (strategy = "auto" →
          (cfgs.getD i default).rotation_count =
            some (calculate_required_rotations
              (((cfgs.getD i default).wheels.getD 0 default).teeth.getD 0)
              (((cfgs.getD i default).wheels.getD 1 default).teeth.getD 0))) ∧
        (strategy = "max" → ∀ ra rb, a.rotation_count = some ra →
          b.rotation_count = some rb →
          (cfgs.getD i default).rotation_count = some (max ra rb)) ∧
        (strategy = "fixed" →
          (cfgs.getD i default).rotation_count = some 50) ∧
        (strategy ≠ "auto" → strategy ≠ "max" → strategy ≠ "fixed" →
          (∀ rc, a.rotation_count = some rc →
            (cfgs.getD i default).rotation_count = some rc) ∧
          (a.rotation_count = none →
            (cfgs.getD i default).rotation_count =
              some (calculate_required_rotations
                (((cfgs.getD i default).wheels.getD 0 default).teeth.getD 0)
                (((cfgs.getD i default).wheels.getD 1 default).teeth.getD 0)))) := by
  have hok := interpolate_configs_ok a b steps easing strategy f hey hsteps
    hAfty hAmty hAft hAmt hBft hBmt hcol
  refine ⟨_, hok, by simp, fun i hi => ?_⟩
  rw [getD_range_map _ _ _ _ hi]
  refine ⟨?_, ?_, ?_, ?_⟩
  · intro hs
    simp [stepPure, hs, List.getD]
  · intro hs ra rb h1 h2
    simp [stepPure, hs, h1, h2]
  · intro hs
    simp [stepPure, hs]
  · intro h1 h2 h3
    constructor
    · intro rc hrc
      simp [stepPure, h1, h2, h3, hrc]
    · intro hna
      simp [stepPure, h1, h2, h3, hna, List.getD]

/-- Witness for C6 at `sampleA`, `sampleB`, `steps = 3`, linear easing,
strategy `max`. -/
theorem C6_rotation_strategies_witness :
    (easingLookup "linear" = some linear ∧ 2 ≤ 3) ∧
    ∃ cfgs, interpolate_configs sampleA sampleB 3 "linear" "max" = Except.ok cfgs :=
  ⟨⟨rfl, by omega⟩,
   match C6_rotation_strategies sampleA sampleB 3 "linear" "max" linear rfl
     (by omega) (by decide) (by decide) (by decide) (by decide) (by decide) (by decide)
     (fun ca cb h1 h2 => by
       simp [sampleA] at h1
       simp [sampleB] at h2
       subst h1
       subst h2
       exact ⟨by decide, by decide⟩) with
   | ⟨cfgs, hok, _⟩ => ⟨cfgs, hok⟩⟩

/-- C10: every emitted configuration contains exactly two wheels: index 0
is the interpolation of the first fixed-role wheel of each input, index 1
of the first moving-role wheel of each input; each is a freshly built
wheel carrying the A-side role tag and no `parent_index` key; any further
wheels of the inputs do not appear. -/
theorem C10_two_wheel_matching (a b : Config) (steps : ℕ)
    (easing strategy : String) (f : ℚ → ℚ)
    (hey : easingLookup easing = some f) (hsteps : 2 ≤ steps)
    (hAfty : (firstOfType a.wheels "fixed").type.isSome)
    (hAmty : (firstOfType a.wheels "moving").type.isSome)
    (hAft : (firstOfType a.wheels "fixed").teeth.isSome)
    (hAmt : (firstOfType a.wheels "moving").teeth.isSome)
    (hBft : (firstOfType b.wheels "fixed").teeth.isSome)
    (hBmt : (firstOfType b.wheels "moving").teeth.isSome)
    (hcol : ∀ ca cb, a.color = some ca → b.color = some cb →
      isHexColor ca = true ∧ isHexColor cb = true) :
    ∃ cfgs, interpolate_configs a b steps easing strategy = Except.ok cfgs ∧
      cfgs.length = steps ∧
      ∀ i, i < steps → ∃ w0 w1,
        interpolate_wheel (firstOfType a.wheels "fixed")
          (firstOfType b.wheels "fixed") (interpT steps i) easing = Except.ok w0 ∧
        interpolate_wheel (firstOfType a.wheels "moving")
          (firstOfType b.wheels "moving") (interpT steps i) easing = Except.ok w1 ∧
        (cfgs.getD i default).wheels = [w0, w1] ∧
        w0.type = (firstOfType a.wheels "fixed").type ∧
        w1.type = (firstOfType a.wheels "moving").type ∧
        w0.parent_index = none ∧ w1.parent_index = none := by
  have hok := interpolate_configs_ok a b steps easing strategy f hey hsteps
    hAfty hAmty hAft hAmt hBft hBmt hcol
  obtain ⟨ty0, hty0⟩ := Option.isSome_iff_exists.mp hAfty
  obtain ⟨ty1, hty1⟩ := Option.isSome_iff_exists.mp hAmty
  obtain ⟨ta0, hta0⟩ := Option.isSome_iff_exists.mp hAft
  obtain ⟨ta1, hta1⟩ := Option.isSome_iff_exists.mp hAmt
  obtain ⟨tb0, htb0⟩ := Option.isSome_iff_exists.mp hBft
  obtain ⟨tb1, htb1⟩ := Option.isSome_iff_exists.mp hBmt
  refine ⟨_, hok, by simp, fun i hi => ?_⟩
  rw [getD_range_map _ _ _ _ hi]
  exact ⟨wheelPure (firstOfType a.wheels "fixed") (firstOfType b.wheels "fixed")
      (interpT steps i) f,
    wheelPure (firstOfType a.wheels "moving") (firstOfType b.wheels "moving")
      (interpT steps i) f,
    interpolate_wheel_ok _ _ _ _ f hey ty0 ta0 tb0 hty0 hta0 htb0,
    interpolate_wheel_ok _ _ _ _ f hey ty1 ta1 tb1 hty1 hta1 htb1,
    rfl, rfl, rfl, rfl, rfl⟩

/-- Witness for C10 at `sampleA`, `sampleB`, `steps = 2`, linear easing,
auto strategy. -/
theorem C10_two_wheel_matching_witness :
    (easingLookup "linear" = some linear ∧ 2 ≤ 2) ∧
    ∃ cfgs, interpolate_configs sampleA sampleB 2 "linear" "fixed" = Except.ok cfgs :=
  ⟨⟨rfl, le_refl 2⟩,
   match C10_two_wheel_matching sampleA sampleB 2 "linear" "fixed" linear rfl
     (le_refl 2) (by decide) (by decide) (by decide) (by decide) (by decide) (by decide)
     (fun ca cb h1 h2 => by
       simp [sampleA] at h1
       simp [sampleB] at h2
       subst h1
       subst h2
       exact ⟨by decide, by decide⟩) with
   | ⟨cfgs, hok, _⟩ => ⟨cfgs, hok⟩⟩

theorem ebind_err {α β : Type} (e : String) (g : α → Except String β) :
    (Except.error e >>= g) = Except.error e := rfl

theorem emap_err {α β : Type} (e : String) (g : α → β) :
    (g <$> (Except.error e : Except String α)) = Except.error e := rfl

theorem emap_ok {α β : Type} (x : α) (g : α → β) :
    (g <$> (Except.ok x : Except String α)) = Except.ok (g x) := rfl

theorem wheelCheck_err_type_none (n i : ℕ) (w : Wheel) (h : w.type = none) :
    ∀ r, wheelCheck n i w ≠ Except.ok r := by
  intro r hok
  simp [wheelCheck, checkWheelType, h, ebind_err, ebind_ok2, emap_err, emap_ok] at hok

theorem wheelCheck_err_type_bad (n i : ℕ) (w : Wheel) (ty : String)
    (h : w.type = some ty) (h1 : ty ≠ "fixed") (h2 : ty ≠ "moving") :
    ∀ r, wheelCheck n i w ≠ Except.ok r := by
  intro r hok
  simp [wheelCheck, checkWheelType, h, h1, h2, ebind_err, ebind_ok2, emap_err, emap_ok] at hok

theorem wheelCheck_err_teeth_none (n i : ℕ) (w : Wheel) (h : w.teeth = none) :
    ∀ r, wheelCheck n i w ≠ Except.ok r := by
  intro r hok
  unfold wheelCheck at hok
  rcases ht : checkWheelType i w with e | ty
  · rw [ht] at hok
    simp [ebind_err, ebind_ok2, emap_err, emap_ok] at hok
  · rw [ht] at hok
    simp [checkWheelTeeth, h, ebind_err, ebind_ok2, emap_err, emap_ok] at hok

theorem wheelCheck_err_teeth_nonpos (n i : ℕ) (w : Wheel) (q : ℚ)
    (h : w.teeth = some q) (hq : q ≤ 0) :
    ∀ r, wheelCheck n i w ≠ Except.ok r := by
  intro r hok
  unfold wheelCheck at hok
  rcases ht : checkWheelType i w with e | ty
  · rw [ht] at hok
    simp [ebind_err, ebind_ok2, emap_err, emap_ok] at hok
  · rw [ht] at hok
    simp [checkWheelTeeth, h, hq, ebind_err, ebind_ok2, emap_err, emap_ok] at hok

theorem wheelCheck_err_parent (n i : ℕ) (w : Wheel) (p : ℤ)
    (hn : 2 < n) (hi : 0 < i) (hp : w.parent_index = some p)
    (hout : p < 0 ∨ (i : ℤ) ≤ p) :
    ∀ r, wheelCheck n i w ≠ Except.ok r := by
  intro r hok
  unfold wheelCheck at hok
  rcases ht : checkWheelType i w with e | ty
  · rw [ht] at hok
    simp [ebind_err, ebind_ok2, emap_err, emap_ok] at hok
  · rw [ht] at hok
    rcases htt : checkWheelTeeth i w with e | q
    · rw [htt] at hok
      simp [ebind_err, ebind_ok2, emap_err, emap_ok] at hok
    · rw [htt] at hok
      simp [resolveParent, hn, hi, hp, hout, ebind_err, ebind_ok2, emap_err, emap_ok] at hok

theorem loop_err_of_mem (n : ℕ) (l : List (ℕ × Wheel)) (fc mc i : ℕ) (w : Wheel)
    (hmem : (i, w) ∈ l) (hbad : ∀ r, wheelCheck n i w ≠ Except.ok r) :
    ∃ e, validateWheelsLoop n l fc mc = Except.error e := by
  induction l generalizing fc mc with
  | nil => simp at hmem
  | cons hd rest ih =>
    obtain ⟨j, v⟩ := hd
    rcases List.mem_cons.mp hmem with heq | hmem'
    · obtain ⟨rfl, rfl⟩ := Prod.mk.injEq .. ▸ And.intro (congrArg Prod.fst heq) (congrArg Prod.snd heq)
      rcases hwc : wheelCheck n i w with e | r
      · exact ⟨e, by simp [validateWheelsLoop, hwc, ebind_err, ebind_ok2, emap_err, emap_ok]⟩
      · exact absurd hwc (hbad r)
    · rcases hwc : wheelCheck n j v with e | r
      · exact ⟨e, by simp [validateWheelsLoop, hwc, ebind_err, ebind_ok2, emap_err, emap_ok]⟩
      · obtain ⟨ty, w'⟩ := r
        obtain ⟨e, he⟩ := ih (if ty = "fixed" then fc + 1 else fc)
          (if ty = "fixed" then mc else mc + 1) hmem'
        exact ⟨e, by simp [validateWheelsLoop, hwc, he, ebind_err, ebind_ok2, emap_err, emap_ok]⟩



theorem validate_wheels_err_of_bad (ws : List Wheel) (i : ℕ) (w : Wheel)
    (hmem : (i, w) ∈ ws.enum)
    (hbad : ∀ r, wheelCheck ws.length i w ≠ Except.ok r) :
    ∃ e, validate_wheels ws = Except.error e := by
  unfold validate_wheels
  by_cases h2 : ws.length < 2
  · exact ⟨_, by rw [if_pos h2]⟩
  · rw [if_neg h2]
    obtain ⟨e, he⟩ := loop_err_of_mem ws.length ws.enum 0 0 i w hmem hbad
    exact ⟨e, by simp [he, ebind_err]⟩

theorem resolveParent_rel (n i : ℕ) (w w' : Wheel)
    (h : resolveParent n i w = Except.ok w') :
    w' = w ∨ (2 < n ∧ 0 < i ∧ w.parent_index = none ∧
      w' = { w with parent_index := some ((i : ℤ) - 1) }) := by
  unfold resolveParent at h
  split_ifs at h with hcond
  · split at h
    next hp =>
      cases h
      exact Or.inr ⟨hcond.1, hcond.2, hp, rfl⟩
    next p hp =>
      split_ifs at h
      cases h
      exact Or.inl rfl
  · cases h
    exact Or.inl rfl

theorem checkWheelType_ok (i : ℕ) (w : Wheel) (ty : String)
    (h : checkWheelType i w = Except.ok ty) : w.type = some ty := by
  unfold checkWheelType at h
  split at h
  next => simp at h
  next t hty =>
    split_ifs at h
    cases h
    exact hty

theorem wheelCheck_ok_rel (n i : ℕ) (w : Wheel) (ty : String) (w' : Wheel)
    (h : wheelCheck n i w = Except.ok (ty, w')) :
    w.type = some ty ∧
    (w' = w ∨ (2 < n ∧ 0 < i ∧ w.parent_index = none ∧
      w' = { w with parent_index := some ((i : ℤ) - 1) })) := by
  unfold wheelCheck at h
  rcases ht : checkWheelType i w with e | ty0
  · rw [ht] at h
    simp [ebind_err] at h
  · rw [ht] at h
    simp only [ebind_ok2] at h
    rcases htt : checkWheelTeeth i w with e | q
    · rw [htt] at h
      simp [ebind_err, ebind_ok2] at h
    · rw [htt] at h
      simp only [ebind_ok2] at h
      rcases hrp : resolveParent n i w with e | w''
      · rw [hrp] at h
        simp [ebind_err, ebind_ok2] at h
      · rw [hrp] at h
        simp only [ebind_ok2] at h
        rcases hpo : checkPenOffset i ty0 w'' with e | u
        · rw [hpo] at h
          simp [ebind_err, ebind_ok2, emap_err] at h
        · rw [hpo] at h
          simp [ebind_ok2, emap_ok] at h
          obtain ⟨rfl, rfl⟩ := h
          exact ⟨checkWheelType_ok i w _ ht, resolveParent_rel n i w _ hrp⟩

theorem loop_ok_rel (n : ℕ) (l : List (ℕ × Wheel)) (fc mc : ℕ)
    (out : List Wheel) (fcr mcr : ℕ)
    (h : validateWheelsLoop n l fc mc = Except.ok (out, fcr, mcr)) :
    out.length = l.length ∧
    ∀ k, k < l.length → ∃ ty,
      wheelCheck n (l.getD k (0, default)).1 (l.getD k (0, default)).2 =
        Except.ok (ty, out.getD k default) := by
  induction l generalizing fc mc out fcr mcr with
  | nil =>
    unfold validateWheelsLoop at h
    cases h
    exact ⟨rfl, fun k hk => absurd hk (by simp)⟩
  | cons hd rest ih =>
    obtain ⟨j, v⟩ := hd
    unfold validateWheelsLoop at h
    rcases hwc : wheelCheck n j v with e | r
    · rw [hwc] at h
      simp [ebind_err] at h
    · obtain ⟨ty, w'⟩ := r
      rw [hwc] at h
      rcases hrest : validateWheelsLoop n rest (if ty = "fixed" then fc + 1 else fc)
          (if ty = "fixed" then mc else mc + 1) with e | r2
      · rw [ebind_ok2] at h
        simp only [] at h
        rw [hrest] at h
        simp [ebind_err] at h
      · obtain ⟨ws, fcr2, mcr2⟩ := r2
        rw [ebind_ok2] at h
        simp only [] at h
        rw [hrest] at h
        rw [ebind_ok2] at h
        simp only [] at h
        have h' : Except.ok (w' :: ws, fcr2, mcr2) = Except.ok (out, fcr, mcr) := h
        injection h' with hpair
        have h1 : w' :: ws = out := congrArg Prod.fst hpair
        subst h1
        obtain ⟨hlen, hrel⟩ := ih _ _ _ _ _ hrest
        refine ⟨by simp [hlen], fun k hk => ?_⟩
        cases k with
        | zero => exact ⟨ty, by simpa using hwc⟩
        | succ m =>
          have hm : m < rest.length := by simpa using hk
          simpa using hrel m hm



theorem enum_getD (ws : List Wheel) (k : ℕ) (hk : k < ws.length) :
    ws.enum.getD k (0, default) = (k, ws.getD k default) := by
  rw [List.getD_eq_getElem?_getD, List.getD_eq_getElem?_getD]
  rw [List.enum, List.getElem?_enumFrom]
  rw [List.getElem?_eq_getElem hk]
  simp

theorem lastMovingIdx_lt (out : List Wheel) (j : ℕ)
    (h : lastMovingIdx out = some j) : j < out.length := by
  unfold lastMovingIdx at h
  have hmem := List.mem_of_getLast?_eq_some h
  simp only [List.mem_map] at hmem
  obtain ⟨p, hp, hp1⟩ := hmem
  have hp2 := List.mem_of_mem_filter hp
  rw [List.enum, List.mk_mem_enumFrom_iff_le_and_getElem?_sub] at hp2
  obtain ⟨-, hp3⟩ := hp2
  subst hp1
  exact List.getElem?_eq_some_iff.mp (by simpa using hp3) |>.1



theorem wheel_rel_of_check (n i : ℕ) (w w' : Wheel) (ty : String)
    (h : wheelCheck n i w = Except.ok (ty, w')) :
    w'.type = w.type ∧ w'.teeth = w.teeth ∧ w'.radius = w.radius ∧
    (w'.parent_index = w.parent_index ∨
      (w.parent_index = none ∧ 2 < n ∧ 0 < i ∧
        w'.parent_index = some ((i : ℤ) - 1))) ∧
    w'.pen_offset = w.pen_offset := by
  obtain ⟨-, hrel⟩ := wheelCheck_ok_rel n i w ty w' h
  rcases hrel with rfl | ⟨hn, hi, hp, rfl⟩
  · exact ⟨rfl, rfl, rfl, Or.inl rfl, rfl⟩
  · exact ⟨rfl, rfl, rfl, Or.inr ⟨hp, hn, hi, rfl⟩, rfl⟩

theorem validate_wheels_ok_rel (ws ws' : List Wheel)
    (h : validate_wheels ws = Except.ok ws') :
    ws'.length = ws.length ∧
    ∀ i, i < ws.length →
      (ws'.getD i default).type = (ws.getD i default).type ∧
      (ws'.getD i default).teeth = (ws.getD i default).teeth ∧
      (ws'.getD i default).radius = (ws.getD i default).radius ∧
      ((ws'.getD i default).parent_index = (ws.getD i default).parent_index ∨
        ((ws.getD i default).parent_index = none ∧ 2 < ws.length ∧ 0 < i ∧
          (ws'.getD i default).parent_index = some ((i : ℤ) - 1))) ∧
      ((ws'.getD i default).pen_offset = (ws.getD i default).pen_offset ∨
        ((ws.getD i default).pen_offset = none ∧ 2 < ws.length ∧
          (ws'.getD i default).pen_offset = some (7/10))) := by
  unfold validate_wheels at h
  by_cases h2 : ws.length < 2
  · rw [if_pos h2] at h
    exact absurd h (by simp)
  rw [if_neg h2] at h
  rcases hloop : validateWheelsLoop ws.length ws.enum 0 0 with e | r
  · rw [hloop] at h
    simp [ebind_err] at h
  · obtain ⟨out, fc, mc⟩ := r
    rw [hloop] at h
    rw [ebind_ok2] at h
    simp only [] at h
    obtain ⟨hlen0, hrel0⟩ := loop_ok_rel ws.length ws.enum 0 0 out fc mc hloop
    have hlen : out.length = ws.length := by simpa using hlen0
    have hrel : ∀ i, i < ws.length →
        (out.getD i default).type = (ws.getD i default).type ∧
        (out.getD i default).teeth = (ws.getD i default).teeth ∧
        (out.getD i default).radius = (ws.getD i default).radius ∧
        ((out.getD i default).parent_index = (ws.getD i default).parent_index ∨
          ((ws.getD i default).parent_index = none ∧ 2 < ws.length ∧ 0 < i ∧
            (out.getD i default).parent_index = some ((i : ℤ) - 1))) ∧
        (out.getD i default).pen_offset = (ws.getD i default).pen_offset := by
      intro i hi
      obtain ⟨ty, hchk⟩ := hrel0 i (by simpa using hi)
      rw [enum_getD ws i hi] at hchk
      exact wheel_rel_of_check ws.length i (ws.getD i default) (out.getD i default) ty hchk
    have hrelI : ∀ i, i < ws.length →
        (out.getD i default).type = (ws.getD i default).type ∧
        (out.getD i default).teeth = (ws.getD i default).teeth ∧
        (out.getD i default).radius = (ws.getD i default).radius ∧
        ((out.getD i default).parent_index = (ws.getD i default).parent_index ∨
          ((ws.getD i default).parent_index = none ∧ 2 < ws.length ∧ 0 < i ∧
            (out.getD i default).parent_index = some ((i : ℤ) - 1))) ∧
        ((out.getD i default).pen_offset = (ws.getD i default).pen_offset ∨
          ((ws.getD i default).pen_offset = none ∧ 2 < ws.length ∧
            (out.getD i default).pen_offset = some (7/10))) := by
      intro i hi
      obtain ⟨e1, e2, e3, e4, e5⟩ := hrel i hi
      exact ⟨e1, e2, e3, e4, Or.inl e5⟩
    have hcounts : fc ≠ 0 ∧ mc ≠ 0 := by
      constructor <;> (intro hz; rw [hz] at h; split at h <;> simp_all)
    rw [if_neg hcounts.1, if_neg hcounts.2] at h
    by_cases hn2 : ws.length = 2
    · rw [if_pos hn2] at h
      split at h
      next mw hfind =>
        split_ifs at h
        cases h
        exact ⟨hlen, hrelI⟩
      next =>
        cases h
        exact ⟨hlen, hrelI⟩
    · rw [if_neg hn2] at h
      rcases hlm : lastMovingIdx out with _ | j
      · rw [hlm] at h
        have h' : Except.ok out = Except.ok ws' := h
        cases h'
        exact ⟨hlen, hrelI⟩
      · rw [hlm] at h
        have hjlt : j < out.length := lastMovingIdx_lt out j hlm
        have h3 : (if (out.getD j default).pen_offset.isNone = true then
            Except.ok (out.set j { out.getD j default with pen_offset := some (7/10) })
          else Except.ok out) = Except.ok ws' := h
        clear h
        split_ifs at h3 with hpen
        · cases h3
          have hn3 : 2 < ws.length := by omega
          refine ⟨by simpa using hlen, fun i hi => ?_⟩
          by_cases hij : i = j
          · subst hij
            have hset : ((out.set i { out.getD i default with pen_offset := some (7/10) }).getD
                i default) = { out.getD i default with pen_offset := some (7/10) } := by
              rw [List.getD_eq_getElem?_getD, List.getElem?_set_self (by omega)]
              rfl
            obtain ⟨e1, e2, e3, e4, e5⟩ := hrel i hi
            rw [hset]
            refine ⟨e1, e2, e3, e4, Or.inr ⟨?_, hn3, rfl⟩⟩
            rw [← e5]
            exact Option.isNone_iff_eq_none.mp hpen
          · have hset : ((out.set j { out.getD j default with pen_offset := some (7/10) }).getD
                i default) = out.getD i default := by
              rw [List.getD_eq_getElem?_getD, List.getElem?_set_ne (by omega),
                ← List.getD_eq_getElem?_getD]
            obtain ⟨e1, e2, e3, e4, e5⟩ := hrel i hi
            rw [hset]
            exact ⟨e1, e2, e3, e4, Or.inl e5⟩
        · cases h3
          exact ⟨hlen, hrelI⟩

theorem mem_enum_of_lt (ws : List Wheel) (i : ℕ) (hi : i < ws.length) :
    (i, ws.getD i default) ∈ ws.enum := by
  have hg : ws.getD i default = ws[i] := by
    rw [List.getD_eq_getElem?_getD, List.getElem?_eq_getElem hi]
    rfl
  rw [hg, List.enum, List.mk_mem_enumFrom_iff_le_and_getElem?_sub]
  exact ⟨Nat.zero_le i, by simp⟩

theorem get_easing_err (s : String) (h : s ∉ easingNames) :
    ∃ e, get_easing_function s = Except.error e := by
  simp only [easingNames, List.mem_cons, List.not_mem_nil, or_false, not_or] at h
  obtain ⟨h1, h2, h3, h4⟩ := h
  exact ⟨"Unknown easing function " ++ s,
    by simp [get_easing_function, easingLookup, h1, h2, h3, h4]⟩

/-- C8: every structural violation below is reported to the caller as a
descriptive `Except.error` with no partial result — too few wheels, a wheel
missing its `type` or `teeth` field, non-positive teeth, an out-of-range
`parent_index` in a configuration of more than 2 wheels, a malformed color
string, and an unknown easing name — and a successful validation never
silently coerces a wheel: every field is carried over verbatim except the two
documented normalizations (a missing `parent_index` defaulted to the
predecessor and the last moving wheel's missing `pen_offset` defaulted to
7/10, both only for configurations of more than 2 wheels).  Amended from the
claim: the `parent_index` range check is skipped for 2-wheel configurations,
so an out-of-range `parent_index` there is silently accepted; and "malformed
color" is judged by the program's regex under Python `re.match` semantics,
whose `$` also accepts exactly one trailing newline, so `#RRGGBB` followed
by a newline is accepted, not reported. -/
theorem C8_structural_validation (ws ws' : List Wheel) (i : ℕ) (p : ℤ) (q : ℚ)
    (color ename : String) :
    (ws.length < 2 → ∃ e, validate_wheels ws = Except.error e) ∧
    (i < ws.length → (ws.getD i default).type = none →
      ∃ e, validate_wheels ws = Except.error e) ∧
    (i < ws.length → (ws.getD i default).teeth = none →
      ∃ e, validate_wheels ws = Except.error e) ∧
    (i < ws.length → (ws.getD i default).teeth = some q → q ≤ 0 →
      ∃ e, validate_wheels ws = Except.error e) ∧
    (2 < ws.length → 0 < i → i < ws.length →
      (ws.getD i default).parent_index = some p → (p < 0 ∨ (i : ℤ) ≤ p) →
      ∃ e, validate_wheels ws = Except.error e) ∧
    (isHexColor color = false → ∃ e, validate_color color = Except.error e) ∧
    (isHexColor color = true → validate_color color = Except.ok ()) ∧
    (ename ∉ easingNames → ∃ e, get_easing_function ename = Except.error e) ∧
    (validate_wheels ws = Except.ok ws' →
      ws'.length = ws.length ∧
      ∀ k, k < ws.length →
        (ws'.getD k default).type = (ws.getD k default).type ∧
        (ws'.getD k default).teeth = (ws.getD k default).teeth ∧
        (ws'.getD k default).radius = (ws.getD k default).radius ∧
        ((ws'.getD k default).parent_index = (ws.getD k default).parent_index ∨
          ((ws.getD k default).parent_index = none ∧ 2 < ws.length ∧ 0 < k ∧
            (ws'.getD k default).parent_index = some ((k : ℤ) - 1))) ∧
        ((ws'.getD k default).pen_offset = (ws.getD k default).pen_offset ∨
          ((ws.getD k default).pen_offset = none ∧ 2 < ws.length ∧
            (ws'.getD k default).pen_offset = some (7/10)))) := by
  refine ⟨?_, ?_, ?_, ?_, ?_, ?_, ?_, ?_, ?_⟩
  · intro hlt
    exact ⟨_, by unfold validate_wheels; rw [if_pos hlt]⟩
  · intro hi hty
    exact validate_wheels_err_of_bad ws i _ (mem_enum_of_lt ws i hi)
      (wheelCheck_err_type_none ws.length i _ hty)
  · intro hi hte
    exact validate_wheels_err_of_bad ws i _ (mem_enum_of_lt ws i hi)
      (wheelCheck_err_teeth_none ws.length i _ hte)
  · intro hi hte hq
    exact validate_wheels_err_of_bad ws i _ (mem_enum_of_lt ws i hi)
      (wheelCheck_err_teeth_nonpos ws.length i _ q hte hq)
  · intro hn hi0 hi hp hout
    exact validate_wheels_err_of_bad ws i _ (mem_enum_of_lt ws i hi)
      (wheelCheck_err_parent ws.length i _ p hn hi0 hp hout)
  · intro hc
    exact ⟨"Color must be in hex format (#RRGGBB), got " ++ color,
      by simp [validate_color, hc]⟩
  · intro hc
    simp [validate_color, hc]
  · exact get_easing_err ename
  · exact validate_wheels_ok_rel ws ws'

/-- C8 counterexample: a 2-wheel configuration whose moving wheel (index 1)
carries `parent_index = 5`, out of range since `1 ≤ 5`, is accepted unchanged
by `validate_wheels` — the range check runs only for configurations of more
than 2 wheels, so this invalid structural input is silently kept, not
reported.  Likewise the color `"#2E86AB\n"`, which does not have the
`#RRGGBB` shape, is accepted by `validate_color`: Python's `$` also matches
before one trailing newline. -/
theorem C8_structural_validation_counterexample :
    validate_wheels
      [⟨some "fixed", some 10, none, none, none⟩,
       ⟨some "moving", some 5, none, some 5, some (1/2)⟩] =
    Except.ok
      [⟨some "fixed", some 10, none, none, none⟩,
       ⟨some "moving", some 5, none, some 5, some (1/2)⟩] ∧
    ((5 : ℤ) < 0 ∨ (1 : ℤ) ≤ 5) ∧
    validate_color "#2E86AB\n" = Except.ok () := by
  refine ⟨?_, ?_, ?_⟩
  · rfl
  · decide
  · rfl

/-- C8 witness: the too-few-wheels, malformed-color and unknown-easing
violations are each reported on a concrete input. -/
theorem C8_structural_validation_witness :
    (([] : List Wheel).length < 2 ∧ ∃ e, validate_wheels [] = Except.error e) ∧
    (isHexColor "red" = false ∧ ∃ e, validate_color "red" = Except.error e) ∧
    ("bounce" ∉ easingNames ∧ ∃ e, get_easing_function "bounce" = Except.error e) :=
  ⟨⟨by decide, (C8_structural_validation [] [] 0 0 0 "red" "bounce").1 (by decide)⟩,
   ⟨by decide,
    (C8_structural_validation [] [] 0 0 0 "red" "bounce").2.2.2.2.2.1 (by decide)⟩,
   ⟨by decide,
    (C8_structural_validation [] [] 0 0 0 "red" "bounce").2.2.2.2.2.2.2.1 (by decide)⟩⟩

end Spiro
